import Mathlib

/-!
# Win32 thread layer of QEMU (util/qemu-thread-win32.c)

A shallow embedding of the thread life cycle (create, trampoline, exit, join),
of the exit-notifier registration and of the non-blocking and timed operations
of the synchronisation primitives.

Conventions of the embedding

* Pointers, handles and thread identifiers are natural numbers; `0` is `NULL`.
* The process state is a `World`: the control blocks (a heap indexed by
  address), the thread-local `qemu_thread_data` of every host thread, the
  file-level statics, and a log of the host calls and of the accesses to the
  shared fields `ret` and `exited`, each tagged with the host thread that
  performed it, in program order.
* Values that the host hands back (`OpenThread`, `_beginthreadex`,
  `GetLastError`, ...) are inputs of the functions.
* A call runs without interleaving, except where it blocks on another thread: while
  a join is blocked in its wait, the other host threads act, and the join goes on in
  the state they leave behind.
* `abort()` and a failed `assert` end the process: such functions return in
  `Except Fatal`.
-/

namespace QemuThreadWin32

/-! ## Basic types and constants -/

/-- A `void *`; `0` is `NULL`. -/
abbrev Ptr := Nat

/-- A host thread identifier (`unsigned`). -/
abbrev Tid := Nat

/-- A host `HANDLE`; `0` is `NULL`. -/
abbrev HANDLE := Nat

/-- The address of a `Notifier`. -/
abbrev Notifier := Nat

/-- The null pointer. -/
def NULL : Nat := 0

/-- Modelled from the spec: the mode constant for joinable threads, declared in
include/qemu/thread.h, which is not among the sources at hand. The spec names two
distinct modes, `joinable` and `detached`. -/
def QEMU_THREAD_JOINABLE : Int := 0

/-- Modelled from the spec: the mode constant for detached threads, declared in
include/qemu/thread.h, which is not among the sources at hand. The spec names two
distinct modes, `joinable` and `detached`. -/
def QEMU_THREAD_DETACHED : Int := 1

/-- Host constant `ERROR_TIMEOUT` (winerror.h). -/
def ERROR_TIMEOUT : Int := 1460

/-- Host constant `WAIT_OBJECT_0` (winbase.h). -/
def WAIT_OBJECT_0 : Int := 0

/-- Host constant `WAIT_TIMEOUT` (winerror.h). -/
def WAIT_TIMEOUT : Int := 258

/-- Host constant `EBUSY` (errno.h). -/
def EBUSY : Int := 16

/-- Conversion of a 32-bit unsigned host value (`DWORD`) to `int`. -/
def toInt32 (n : Nat) : Int :=
  if n % 4294967296 < 2147483648 then (n % 4294967296 : Nat)
  else ((n % 4294967296 : Nat) : Int) - 4294967296

/-- Conversion of an `int` to the `short` field `mode`. -/
def toShort (m : Int) : Int :=
  (m + 32768) % 65536 - 32768

/-- The ways the process is terminated from inside this layer. -/
inductive Fatal
  | assert_failed
  | error_exit (err : Int)
  deriving DecidableEq, Repr

/-! ## Control blocks and the process state -/

/-- How a start routine ends. -/
inductive Finish
  | returns (v : Ptr)
  | exits (v : Ptr)
  deriving DecidableEq, Repr

/-- What a start routine does as far as this layer can see: it registers exit
notifiers through `qemu_thread_atexit_add`, then either returns a value or calls
`qemu_thread_exit` with a value. -/
structure Body where
  registers : List Notifier
  finish : Finish
  deriving DecidableEq, Repr

/-- The `struct QemuThreadData`. The `CRITICAL_SECTION cs` is a host object: the
operations on it appear in the log. -/
structure QemuThreadData where
  start_routine : Ptr → Body
  arg : Ptr
  mode : Int
  exit : List Notifier
  exited : Bool
  ret : Ptr

/-- The `struct QemuThread`. -/
structure QemuThread where
  data : Ptr
  tid : Tid
  deriving DecidableEq, Repr

/-- Host calls and accesses to the shared fields of a control block. -/
inductive Act
  | notifier_list_notify (data : Ptr) (ns : List Notifier)
  | set_ret (data : Ptr) (v : Ptr)
  | get_ret (data : Ptr)
  | set_exited (data : Ptr)
  | get_exited (data : Ptr)
  | InitializeCriticalSection (data : Ptr)
  | EnterCriticalSection (data : Ptr)
  | LeaveCriticalSection (data : Ptr)
  | DeleteCriticalSection (data : Ptr)
  | g_malloc (data : Ptr)
  | g_free (data : Ptr)
  | beginthreadex (data : Ptr) (tid : Tid)
  | endthreadex
  | OpenThread (tid : Tid)
  | WaitForSingleObject_INFINITE (h : HANDLE)
  | CloseHandle (h : HANDLE)
  | atexit_run_main_thread_exit
  | LoadLibrary_kernel32
  | GetProcAddress_SetThreadDescription
  | FreeLibrary (m : Ptr)
  | SetThreadDescription (h : HANDLE) (name : Ptr)
  | fprintf_naming_not_supported
  | fprintf_failed_to_set_description (name : Ptr)
  deriving DecidableEq, Repr

/-- The process state. -/
structure World where
  heap : Ptr → QemuThreadData
  qemu_thread_data : Tid → Ptr
  name_threads : Bool
  init_once : Bool
  kernel32_module : Ptr
  SetThreadDescriptionFunc : Ptr
  atexit_registered : Bool
  main_thread_exit : List Notifier
  log : List (Tid × Act)

/-- Values handed back by the host during one call into this layer. The field
`during_wait` lists what the host threads do, in order, between the moment the caller
blocks in `WaitForSingleObject (handle, INFINITE)` and the moment that call returns;
the code does not look at the result of the call. -/
structure Host where
  LoadLibrary : Ptr
  GetProcAddress : Ptr
  g_utf8_to_utf16 : Ptr
  SetThreadDescription : Int
  g_malloc : Ptr
  beginthreadex_handle : HANDLE
  beginthreadex_tid : Tid
  OpenThread : Tid → HANDLE
  GetLastError : Nat
  during_wait : List (Tid × Act)

/-- Replace the control block at address `d`. -/
def World.store (w : World) (d : Ptr) (b : QemuThreadData) : World :=
  { w with heap := fun p => if p = d then b else w.heap p }

/-- One atomic action of host thread `me`: it is appended to the log, and the two
writes to shared fields update the control block. -/
def step (me : Tid) (w : World) (a : Act) : World :=
  let w1 : World := { w with log := w.log ++ [(me, a)] }
  match a with
  | .set_ret d v => w1.store d { w.heap d with ret := v }
  | .set_exited d => w1.store d { w.heap d with exited := true }
  | _ => w1

/-- Replay a list of actions of host thread `me`. -/
def run (me : Tid) (w : World) (as : List Act) : World :=
  as.foldl (step me) w

/-- The log entries added between `w` and a later state `w2`. -/
def performed (w w2 : World) : List (Tid × Act) :=
  w2.log.drop w.log.length

/-- Replay a list of actions, each by the host thread it is tagged with. -/
def replay (w : World) (l : List (Tid × Act)) : World :=
  l.foldl (fun w e => step e.1 w e.2) w

/-- The actions of a list that host thread `me` did not perform itself: while `me`
is blocked in a host call, only the other host threads act. -/
def others (me : Tid) (l : List (Tid × Act)) : List (Tid × Act) :=
  l.filter (fun e => decide (e.1 ≠ me))

/-- Number of `g_free` calls on the control block at `d`. -/
def frees (d : Ptr) (l : List (Tid × Act)) : Nat :=
  l.countP (fun e => e.2 = Act.g_free d)

/-! ## Exit notifiers -/

/-- Modelled from the spec: `notifier_list_init` of util/notify.c, which is not among
the sources at hand; it yields the empty list. -/
def notifier_list_init : List Notifier := []

/-- Modelled from the spec: `notifier_list_add` of util/notify.c, which is not among
the sources at hand; the spec says the callback is appended to the list. -/
def notifier_list_add (l : List Notifier) (n : Notifier) : List Notifier :=
  l ++ [n]

/-- The function `qemu_thread_atexit_add`, called on host thread `me`. -/
def qemu_thread_atexit_add (me : Tid) (notifier : Notifier) (w : World) : World :=
  if w.qemu_thread_data me = NULL then
    let w :=
      if !w.atexit_registered then
        step me { w with atexit_registered := true } Act.atexit_run_main_thread_exit
      else w
    { w with main_thread_exit := notifier_list_add w.main_thread_exit notifier }
  else
    let d := w.qemu_thread_data me
    w.store d { w.heap d with exit := notifier_list_add (w.heap d).exit notifier }

/-- The state after host thread `me` has called `qemu_thread_atexit_add` on each
notifier of `ns` in turn. -/
def registered (me : Tid) (ns : List Notifier) (w : World) : World :=
  ns.foldl (fun w n => qemu_thread_atexit_add me n w) w

/-! ## Thread life cycle -/

/-- The function `qemu_thread_exit`, called on host thread `me`. -/
def qemu_thread_exit (me : Tid) (arg : Ptr) (w : World) : World :=
  let data := w.qemu_thread_data me
  let w := step me w (Act.notifier_list_notify data (w.heap data).exit)
  if (w.heap data).mode = QEMU_THREAD_JOINABLE then
    let w := step me w (Act.set_ret data arg)
    let w := step me w (Act.EnterCriticalSection data)
    let w := step me w (Act.set_exited data)
    let w := step me w (Act.LeaveCriticalSection data)
    step me w Act.endthreadex
  else
    let w := step me w (Act.g_free data)
    step me w Act.endthreadex

/-- The start routine of a control block, run on host thread `me`: the left result
is the state in which the thread has ended inside the routine (through
`qemu_thread_exit`), the right result is the state and the value the routine
returned. -/
def run_start_routine (me : Tid) (b : Body) (w : World) : World ⊕ (World × Ptr) :=
  let w := registered me b.registers w
  match b.finish with
  | .exits v => Sum.inl (qemu_thread_exit me v w)
  | .returns v => Sum.inr (w, v)

/-- The trampoline `win32_start_routine`, run on the new host thread `me`. -/
def win32_start_routine (me : Tid) (arg : Ptr) (w : World) : World :=
  let data := arg
  let start_routine := (w.heap data).start_routine
  let thread_arg := (w.heap data).arg
  let w := { w with qemu_thread_data := fun t => if t = me then data else w.qemu_thread_data t }
  match run_start_routine me (start_routine thread_arg) w with
  | Sum.inl w => w
  | Sum.inr (w, v) => qemu_thread_exit me v w

/-- The function `qemu_thread_get_handle`, called on host thread `me`. -/
def qemu_thread_get_handle (host : Host) (me : Tid) (thread : QemuThread) (w : World) :
    World × HANDLE :=
  let data := thread.data
  if (w.heap data).mode = QEMU_THREAD_DETACHED then
    (w, NULL)
  else
    let w := step me w (Act.EnterCriticalSection data)
    let w := step me w (Act.get_exited data)
    if !(w.heap data).exited then
      let w := step me w (Act.OpenThread thread.tid)
      let handle := host.OpenThread thread.tid
      let w := step me w (Act.LeaveCriticalSection data)
      (w, handle)
    else
      let handle := NULL
      let w := step me w (Act.LeaveCriticalSection data)
      (w, handle)

/-- The function `qemu_thread_join`, called on host thread `me`. While the caller is
blocked in the wait, the other host threads act (`Host.during_wait`); the return
value is read afterwards. -/
def qemu_thread_join (host : Host) (me : Tid) (thread : QemuThread) (w : World) :
    World × Ptr :=
  let data := thread.data
  if (w.heap data).mode = QEMU_THREAD_DETACHED then
    (w, NULL)
  else
    let (w, handle) := qemu_thread_get_handle host me thread w
    let w :=
      if handle ≠ NULL then
        let w := step me w (Act.WaitForSingleObject_INFINITE handle)
        let w := replay w (others me host.during_wait)
        step me w (Act.CloseHandle handle)
      else w
    let w := step me w (Act.get_ret data)
    let ret := (w.heap data).ret
    let w := step me w (Act.DeleteCriticalSection data)
    let w := step me w (Act.g_free data)
    (w, ret)

/-! ## Thread naming and creation -/

/-- The function `load_set_thread_description`, called on host thread `me`; the
guard `g_once_init_enter` is the flag `init_once`. -/
def load_set_thread_description (host : Host) (me : Tid) (w : World) : World × Bool :=
  let w :=
    if !w.init_once then
      let w := step me w Act.LoadLibrary_kernel32
      let w := { w with kernel32_module := host.LoadLibrary }
      let w :=
        if w.kernel32_module ≠ NULL then
          let w := step me w Act.GetProcAddress_SetThreadDescription
          let w := { w with SetThreadDescriptionFunc := host.GetProcAddress }
          if w.SetThreadDescriptionFunc = NULL then
            step me w (Act.FreeLibrary w.kernel32_module)
          else w
        else w
      { w with init_once := true }
    else w
  (w, decide (w.SetThreadDescriptionFunc ≠ NULL))

/-- The function `qemu_thread_naming`, called on host thread `me`. -/
def qemu_thread_naming (host : Host) (me : Tid) (enable : Bool) (w : World) : World :=
  let w := { w with name_threads := enable }
  if enable then
    let (w, ok) := load_set_thread_description host me w
    if !ok then
      let w := step me w Act.fprintf_naming_not_supported
      { w with name_threads := false }
    else w
  else w

/-- The function `set_thread_description`, called on host thread `me`. -/
def set_thread_description (host : Host) (me : Tid) (h : HANDLE) (name : Ptr) (w : World) :
    World × Bool :=
  let (w, ok) := load_set_thread_description host me w
  if !ok then
    (w, false)
  else
    let namew := host.g_utf8_to_utf16
    if namew = NULL then
      (w, false)
    else
      let w := step me w (Act.SetThreadDescription h name)
      let hr := host.SetThreadDescription
      (w, decide (0 ≤ hr))

/-- The function `qemu_thread_create`, called on host thread `me`. The block that
`g_malloc` returns keeps whatever `ret` the memory held before. -/
def qemu_thread_create (host : Host) (me : Tid) (name : Ptr) (start_routine : Ptr → Body)
    (arg : Ptr) (mode : Int) (w : World) : Except Fatal (World × QemuThread) :=
  let data := host.g_malloc
  let w := step me w (Act.g_malloc data)
  let w := w.store data
    { w.heap data with
      start_routine := start_routine, arg := arg, mode := toShort mode,
      exited := false, exit := notifier_list_init }
  let w :=
    if (w.heap data).mode ≠ QEMU_THREAD_DETACHED then
      step me w (Act.InitializeCriticalSection data)
    else w
  let hThread := host.beginthreadex_handle
  let tid := host.beginthreadex_tid
  let w := step me w (Act.beginthreadex data tid)
  if hThread = NULL then
    Except.error (Fatal.error_exit (toInt32 host.GetLastError))
  else
    let w :=
      if w.name_threads && decide (name ≠ NULL) then
        let (w, ok) := set_thread_description host me hThread name w
        if !ok then step me w (Act.fprintf_failed_to_set_description name) else w
      else w
    let w := step me w (Act.CloseHandle hThread)
    Except.ok (w, { data := data, tid := tid })

/-! ## Non-blocking and timed operations of the primitives -/

/-- The `struct QemuMutex`; the `SRWLOCK` is a host object. -/
structure QemuMutex where
  initialized : Bool
  deriving DecidableEq, Repr

/-- The `struct QemuRecMutex`; the `CRITICAL_SECTION` is a host object. -/
structure QemuRecMutex where
  initialized : Bool
  deriving DecidableEq, Repr

/-- The `struct QemuCond`; the `CONDITION_VARIABLE` is a host object. -/
structure QemuCond where
  initialized : Bool
  deriving DecidableEq, Repr

/-- The `struct QemuSemaphore`. -/
structure QemuSemaphore where
  sema : HANDLE
  initialized : Bool
  deriving DecidableEq, Repr

/-- Host calls and instrumentation hooks made by an operation on a primitive, in
program order. -/
inductive Call
  | TryAcquireSRWLockExclusive
  | TryEnterCriticalSection
  | SleepConditionVariableSRW (ms : Int)
  | WaitForSingleObject (h : HANDLE) (ms : Int)
  | GetLastError
  | qemu_mutex_post_lock
  | trace_qemu_mutex_unlock
  | trace_qemu_mutex_locked
  | InitializeSRWLock
  | AcquireSRWLockExclusive
  | ReleaseSRWLockExclusive
  | InitializeCriticalSection
  | DeleteCriticalSection
  | EnterCriticalSection
  | LeaveCriticalSection
  | memset_zero
  | InitializeConditionVariable
  | WakeConditionVariable
  | WakeAllConditionVariable
  | SleepConditionVariableSRW_INFINITE
  | CreateSemaphore (count : Int)
  | CloseHandle (h : HANDLE)
  | ReleaseSemaphore (h : HANDLE)
  | WaitForSingleObject_INFINITE (h : HANDLE)
  | qemu_mutex_post_init
  | qemu_mutex_pre_lock
  | qemu_mutex_pre_unlock
  | set_initialized (b : Bool)
  deriving DecidableEq, Repr

/-- The function `qemu_mutex_trylock_impl`; `tryAcquire` is the `BOOLEAN` that
`TryAcquireSRWLockExclusive` hands back. -/
def qemu_mutex_trylock_impl (mutex : QemuMutex) (tryAcquire : Nat) :
    Except Fatal (Int × List Call) :=
  if !mutex.initialized then
    Except.error Fatal.assert_failed
  else
    let owned : Int := (tryAcquire % 256 : Nat)
    if owned ≠ 0 then
      Except.ok (0, [Call.TryAcquireSRWLockExclusive, Call.qemu_mutex_post_lock])
    else
      Except.ok (-EBUSY, [Call.TryAcquireSRWLockExclusive])

/-- The function `qemu_rec_mutex_trylock_impl`; `tryEnter` is the `BOOL` that
`TryEnterCriticalSection` hands back. -/
def qemu_rec_mutex_trylock_impl (mutex : QemuRecMutex) (tryEnter : Int) :
    Except Fatal (Int × List Call) :=
  if !mutex.initialized then
    Except.error Fatal.assert_failed
  else
    Except.ok (if tryEnter = 0 then 1 else 0, [Call.TryEnterCriticalSection])

/-- The function `qemu_cond_timedwait_impl`; `sleep` is the `BOOL` that
`SleepConditionVariableSRW` hands back and `lastError` the `DWORD` that
`GetLastError` hands back when it is asked. -/
def qemu_cond_timedwait_impl (cond : QemuCond) (ms : Int) (sleep : Int) (lastError : Nat) :
    Except Fatal (Bool × List Call) :=
  let rc : Int := 0
  if !cond.initialized then
    Except.error Fatal.assert_failed
  else
    let calls := [Call.trace_qemu_mutex_unlock, Call.SleepConditionVariableSRW ms]
    let (rc, calls) :=
      if sleep = 0 then (toInt32 lastError, calls ++ [Call.GetLastError]) else (rc, calls)
    let calls := calls ++ [Call.trace_qemu_mutex_locked]
    if rc ≠ 0 ∧ rc ≠ ERROR_TIMEOUT then
      Except.error (Fatal.error_exit rc)
    else
      Except.ok (decide (rc ≠ ERROR_TIMEOUT), calls)

/-- The function `qemu_sem_timedwait`; `wait` is the `DWORD` that
`WaitForSingleObject` hands back and `lastError` the `DWORD` that `GetLastError`
hands back when it is asked. -/
def qemu_sem_timedwait (sem : QemuSemaphore) (ms : Int) (wait : Nat) (lastError : Nat) :
    Except Fatal (Int × List Call) :=
  if !sem.initialized then
    Except.error Fatal.assert_failed
  else
    let rc : Int := toInt32 wait
    let calls := [Call.WaitForSingleObject sem.sema ms]
    if rc = WAIT_OBJECT_0 then
      Except.ok (0, calls)
    else if rc ≠ WAIT_TIMEOUT then
      Except.error (Fatal.error_exit (toInt32 lastError))
    else
      Except.ok (-1, calls)

/-! ## Initialisation, destruction and the blocking operations of the primitives

An operation that takes the primitive by pointer and returns nothing yields the
primitive it leaves behind, together with its host calls, hooks and writes of the
`initialized` field (`Call.set_initialized`) in program order. -/

/-- Modelled from the spec: `qemu_mutex_post_init` of util/qemu-thread-common.h, which
is not among the sources at hand; the spec says that `init()` marks the primitive
initialized. -/
def qemu_mutex_post_init (mutex : QemuMutex) : QemuMutex :=
  { mutex with initialized := true }

/-- The function `qemu_mutex_init`. -/
def qemu_mutex_init (mutex : QemuMutex) : QemuMutex × List Call :=
  let mutex := qemu_mutex_post_init mutex
  (mutex, [Call.InitializeSRWLock, Call.qemu_mutex_post_init])

/-- The function `qemu_mutex_destroy`. -/
def qemu_mutex_destroy (mutex : QemuMutex) : Except Fatal (QemuMutex × List Call) :=
  if !mutex.initialized then
    Except.error Fatal.assert_failed
  else
    let mutex := { mutex with initialized := false }
    Except.ok (mutex, [Call.set_initialized false, Call.InitializeSRWLock])

/-- The function `qemu_mutex_lock_impl`. -/
def qemu_mutex_lock_impl (mutex : QemuMutex) : Except Fatal (QemuMutex × List Call) :=
  if !mutex.initialized then
    Except.error Fatal.assert_failed
  else
    Except.ok (mutex,
      [Call.qemu_mutex_pre_lock, Call.AcquireSRWLockExclusive, Call.qemu_mutex_post_lock])

/-- The function `qemu_mutex_unlock_impl`. -/
def qemu_mutex_unlock_impl (mutex : QemuMutex) : Except Fatal (QemuMutex × List Call) :=
  if !mutex.initialized then
    Except.error Fatal.assert_failed
  else
    Except.ok (mutex, [Call.qemu_mutex_pre_unlock, Call.ReleaseSRWLockExclusive])

/-- The function `qemu_rec_mutex_init`. -/
def qemu_rec_mutex_init (mutex : QemuRecMutex) : QemuRecMutex × List Call :=
  let mutex := { mutex with initialized := true }
  (mutex, [Call.InitializeCriticalSection, Call.set_initialized true])

/-- The function `qemu_rec_mutex_destroy`. -/
def qemu_rec_mutex_destroy (mutex : QemuRecMutex) : Except Fatal (QemuRecMutex × List Call) :=
  if !mutex.initialized then
    Except.error Fatal.assert_failed
  else
    let mutex := { mutex with initialized := false }
    Except.ok (mutex, [Call.set_initialized false, Call.DeleteCriticalSection])

/-- The function `qemu_rec_mutex_lock_impl`. -/
def qemu_rec_mutex_lock_impl (mutex : QemuRecMutex) :
    Except Fatal (QemuRecMutex × List Call) :=
  if !mutex.initialized then
    Except.error Fatal.assert_failed
  else
    Except.ok (mutex, [Call.EnterCriticalSection])

/-- The function `qemu_rec_mutex_unlock_impl`. -/
def qemu_rec_mutex_unlock_impl (mutex : QemuRecMutex) :
    Except Fatal (QemuRecMutex × List Call) :=
  if !mutex.initialized then
    Except.error Fatal.assert_failed
  else
    Except.ok (mutex, [Call.LeaveCriticalSection])

/-- The function `qemu_cond_init`; the `memset` clears the flag before it is set. -/
def qemu_cond_init (cond : QemuCond) : QemuCond × List Call :=
  let cond := { cond with initialized := false }
  let cond := { cond with initialized := true }
  (cond, [Call.memset_zero, Call.InitializeConditionVariable, Call.set_initialized true])

/-- The function `qemu_cond_destroy`. -/
def qemu_cond_destroy (cond : QemuCond) : Except Fatal (QemuCond × List Call) :=
  if !cond.initialized then
    Except.error Fatal.assert_failed
  else
    let cond := { cond with initialized := false }
    Except.ok (cond, [Call.set_initialized false, Call.InitializeConditionVariable])

/-- The function `qemu_cond_signal`. -/
def qemu_cond_signal (cond : QemuCond) : Except Fatal (QemuCond × List Call) :=
  if !cond.initialized then
    Except.error Fatal.assert_failed
  else
    Except.ok (cond, [Call.WakeConditionVariable])

/-- The function `qemu_cond_broadcast`. -/
def qemu_cond_broadcast (cond : QemuCond) : Except Fatal (QemuCond × List Call) :=
  if !cond.initialized then
    Except.error Fatal.assert_failed
  else
    Except.ok (cond, [Call.WakeAllConditionVariable])

/-- The function `qemu_cond_wait_impl`; only the flag of the condition variable is
asserted, the mutex is handed to the hooks and to the host. -/
def qemu_cond_wait_impl (cond : QemuCond) (_mutex : QemuMutex) :
    Except Fatal (QemuCond × List Call) :=
  if !cond.initialized then
    Except.error Fatal.assert_failed
  else
    Except.ok (cond,
      [Call.qemu_mutex_pre_unlock, Call.SleepConditionVariableSRW_INFINITE,
       Call.qemu_mutex_post_lock])

/-- The function `qemu_sem_init`; `created` is the handle that `CreateSemaphore`
hands back. -/
def qemu_sem_init (sem : QemuSemaphore) (count : Int) (created : HANDLE) :
    QemuSemaphore × List Call :=
  let sem := { sem with sema := created }
  let sem := { sem with initialized := true }
  (sem, [Call.CreateSemaphore count, Call.set_initialized true])

/-- The function `qemu_sem_destroy`. -/
def qemu_sem_destroy (sem : QemuSemaphore) : Except Fatal (QemuSemaphore × List Call) :=
  if !sem.initialized then
    Except.error Fatal.assert_failed
  else
    let sem := { sem with initialized := false }
    Except.ok (sem, [Call.set_initialized false, Call.CloseHandle sem.sema])

/-- The function `qemu_sem_post`. -/
def qemu_sem_post (sem : QemuSemaphore) : Except Fatal (QemuSemaphore × List Call) :=
  if !sem.initialized then
    Except.error Fatal.assert_failed
  else
    Except.ok (sem, [Call.ReleaseSemaphore sem.sema])

/-- The function `qemu_sem_wait`; `wait` is the `DWORD` that `WaitForSingleObject`
hands back and `lastError` the `DWORD` that `GetLastError` hands back when it is
asked. -/
def qemu_sem_wait (sem : QemuSemaphore) (wait : Nat) (lastError : Nat) :
    Except Fatal (QemuSemaphore × List Call) :=
  if !sem.initialized then
    Except.error Fatal.assert_failed
  else if ((wait % 4294967296 : Nat) : Int) ≠ WAIT_OBJECT_0 then
    Except.error (Fatal.error_exit (toInt32 lastError))
  else
    Except.ok (sem, [Call.WaitForSingleObject_INFINITE sem.sema])

/-! ## Self-identification -/

/-- The function `qemu_thread_get_self`, called on host thread `me`, whose
identifier is what `GetCurrentThreadId` hands back. -/
def qemu_thread_get_self (me : Tid) (w : World) : QemuThread :=
  { data := w.qemu_thread_data me, tid := me }

/-- The function `qemu_thread_is_self`, called on host thread `me`. -/
def qemu_thread_is_self (me : Tid) (thread : QemuThread) : Bool :=
  decide (me = thread.tid)

/-! ## Reading the log -/

/-- Walk a log and follow how deep host thread `t` is inside the exclusive section
of the control block `d` (entered and not yet left, starting from `depth`); the
result says whether every action `a` of `t` happens at a depth that `ok` accepts. -/
def accesses (ok : Nat → Bool) (t : Tid) (d : Ptr) (a : Act) : Nat → List (Tid × Act) → Bool
  | _, [] => true
  | depth, (u, b) :: l =>
    if u = t ∧ b = Act.EnterCriticalSection d then accesses ok t d a (depth + 1) l
    else if u = t ∧ b = Act.LeaveCriticalSection d then accesses ok t d a (depth - 1) l
    else if u = t ∧ b = a then ok depth && accesses ok t d a depth l
    else accesses ok t d a depth l

/-- Every action `a` of host thread `t` in the log happens while `t` is inside the
exclusive section of `d`. -/
def inside_cs (t : Tid) (d : Ptr) (a : Act) (l : List (Tid × Act)) : Bool :=
  accesses (fun depth => decide (0 < depth)) t d a 0 l

/-- Every action `a` of host thread `t` in the log happens while `t` is not inside
the exclusive section of `d`. -/
def outside_cs (t : Tid) (d : Ptr) (a : Act) (l : List (Tid × Act)) : Bool :=
  accesses (fun depth => decide (depth = 0)) t d a 0 l

/-- Whether the action runs an exit-notifier list. -/
def Act.isNotify : Act → Bool
  | Act.notifier_list_notify _ _ => true
  | _ => false

/-- Whether a join on a control block that is not detached waits: the `exited` flag
is clear and re-opening the thread yields a handle. -/
def join_waits (host : Host) (thread : QemuThread) (exited : Bool) : Bool :=
  !exited && decide (host.OpenThread thread.tid ≠ NULL)

/-- The actions of a join on a control block that is not detached, up to the point
where it blocks: the section is entered, the flag is read, the thread is re-opened
when the flag is clear, the section is left, and the handle (if any) is waited on. -/
def join_head (host : Host) (thread : QemuThread) (exited : Bool) : List Act :=
  [Act.EnterCriticalSection thread.data, Act.get_exited thread.data] ++
  (if exited then [] else [Act.OpenThread thread.tid]) ++
  [Act.LeaveCriticalSection thread.data] ++
  (if join_waits host thread exited then
    [Act.WaitForSingleObject_INFINITE (host.OpenThread thread.tid)]
   else [])

/-- What the other host threads do while the join of host thread `me` is blocked. -/
def join_meanwhile (host : Host) (me : Tid) (thread : QemuThread) (exited : Bool) :
    List (Tid × Act) :=
  if join_waits host thread exited then others me host.during_wait else []

/-- The actions of a join on a control block that is not detached, after the wait:
the handle (if any) is closed, the result is read and the block is released. -/
def join_tail (host : Host) (thread : QemuThread) (exited : Bool) : List Act :=
  (if join_waits host thread exited then [Act.CloseHandle (host.OpenThread thread.tid)]
   else []) ++
  [Act.get_ret thread.data, Act.DeleteCriticalSection thread.data, Act.g_free thread.data]

/-- The state after a sequence of `qemu_thread_atexit_add` calls, each given by the
calling host thread and the notifier. -/
def atexit_adds (calls : List (Tid × Notifier)) (w : World) : World :=
  calls.foldl (fun w c => qemu_thread_atexit_add c.1 c.2 w) w

/-- Number of registrations of `run_main_thread_exit` with `atexit` in a log. -/
def atexits (l : List (Tid × Act)) : Nat :=
  l.countP (fun e => e.2 = Act.atexit_run_main_thread_exit)

/-- The list that results from adding the notifiers of the given calls, in order,
to `l`. -/
def added (l : List Notifier) (calls : List (Tid × Notifier)) : List Notifier :=
  calls.foldl (fun l c => notifier_list_add l c.2) l

/-! ## Concrete states -/

/-- A control block whose fields are all zero. -/
def QemuThreadData.zero : QemuThreadData where
  start_routine := fun _ => { registers := [], finish := Finish.returns 0 }
  arg := 0
  mode := 0
  exit := []
  exited := false
  ret := 0

/-- The process state at program start: the statics are zero, no host thread has a
control block, nothing has happened. -/
def World.start : World where
  heap := fun _ => QemuThreadData.zero
  qemu_thread_data := fun _ => NULL
  name_threads := false
  init_once := false
  kernel32_module := NULL
  SetThreadDescriptionFunc := NULL
  atexit_registered := false
  main_thread_exit := []
  log := []

/-- A host that allocates at address 8, starts the new thread as thread 7 with
handle 3, re-opens any thread as handle 4, has no thread naming, and on which
nothing happens while a join waits. -/
def Host.plain : Host where
  LoadLibrary := 0
  GetProcAddress := 0
  g_utf8_to_utf16 := 0
  SetThreadDescription := 0
  g_malloc := 8
  beginthreadex_handle := 3
  beginthreadex_tid := 7
  OpenThread := fun _ => 4
  GetLastError := 0
  during_wait := []

/-- The host supports thread descriptions: kernel32.dll can be loaded and exports
`SetThreadDescription`. -/
def Host.supports_naming (host : Host) : Bool :=
  decide (host.LoadLibrary ≠ NULL) && decide (host.GetProcAddress ≠ NULL)

/-- The one-time probe of `load_set_thread_description` and the host agree: before
the probe the function pointer is null, as the static is at program start; after the
probe it is set exactly when the host supports thread descriptions. -/
def probe_consistent (host : Host) (w : World) : Bool :=
  if w.init_once then decide (w.SetThreadDescriptionFunc ≠ NULL) == host.supports_naming
  else decide (w.SetThreadDescriptionFunc = NULL)

/-- The state after host thread `me` has called `qemu_thread_naming` with each of the
given arguments in turn. -/
def namings (host : Host) (me : Tid) (enables : List Bool) (w : World) : World :=
  enables.foldl (fun w enable => qemu_thread_naming host me enable w) w

/-- Whether the action belongs to an attempt to name a thread: the probe for
`SetThreadDescription`, the call itself, or one of the two diagnostics. -/
def Act.isNaming : Act → Bool
  | Act.LoadLibrary_kernel32 => true
  | Act.GetProcAddress_SetThreadDescription => true
  | Act.FreeLibrary _ => true
  | Act.SetThreadDescription _ _ => true
  | Act.fprintf_naming_not_supported => true
  | Act.fprintf_failed_to_set_description _ => true
  | _ => false

/-- A host with thread naming on which every thread description fails. -/
def Host.failingNames : Host :=
  { Host.plain with LoadLibrary := 5, GetProcAddress := 6, g_utf8_to_utf16 := 9,
                    SetThreadDescription := -1 }

/-- A start routine that registers the notifiers 21 and 22 and returns 42. -/
def routine42 : Ptr → Body :=
  fun _ => { registers := [21, 22], finish := Finish.returns 42 }

/-- The state in which the control block at address 8 has the given mode and
belongs to host thread 7, with notifier 21 on its list. -/
def World.running (mode : Int) : World :=
  { World.start with
    heap := fun p =>
      if p = 8 then { QemuThreadData.zero with mode := mode, start_routine := routine42, exit := [21] }
      else QemuThreadData.zero
    qemu_thread_data := fun t => if t = 7 then 8 else NULL }

/-- The handle of the thread of `World.running`. -/
def QemuThread.seven : QemuThread := { data := 8, tid := 7 }

/-! ## Basic facts about the atomic actions -/

@[simp] theorem step_log (me : Tid) (w : World) (a : Act) :
    (step me w a).log = w.log ++ [(me, a)] := by
  cases a <;> rfl

@[simp] theorem step_qemu_thread_data (me : Tid) (w : World) (a : Act) :
    (step me w a).qemu_thread_data = w.qemu_thread_data := by
  cases a <;> rfl

@[simp] theorem step_mode (me : Tid) (w : World) (a : Act) (p : Ptr) :
    ((step me w a).heap p).mode = (w.heap p).mode := by
  cases a <;> simp [step, World.store] <;> split <;> simp_all

@[simp] theorem step_exit_list (me : Tid) (w : World) (a : Act) (p : Ptr) :
    ((step me w a).heap p).exit = (w.heap p).exit := by
  cases a <;> simp [step, World.store] <;> split <;> simp_all

theorem step_ret (me : Tid) (w : World) (a : Act) (p : Ptr) :
    ((step me w a).heap p).ret =
      match a with
      | Act.set_ret d v => if p = d then v else (w.heap p).ret
      | _ => (w.heap p).ret := by
  cases a <;> simp [step, World.store] <;> split <;> simp_all

theorem step_exited (me : Tid) (w : World) (a : Act) (p : Ptr) :
    ((step me w a).heap p).exited =
      match a with
      | Act.set_exited d => if p = d then true else (w.heap p).exited
      | _ => (w.heap p).exited := by
  cases a <;> simp [step, World.store] <;> split <;> simp_all

/-! ## Registration leaves modes, results and the thread-local pointers alone -/

theorem atexit_add_qemu_thread_data (me : Tid) (n : Notifier) (w : World) :
    (qemu_thread_atexit_add me n w).qemu_thread_data = w.qemu_thread_data := by
  unfold qemu_thread_atexit_add
  split
  · split <;> simp
  · rfl

theorem atexit_add_mode (me : Tid) (n : Notifier) (w : World) (p : Ptr) :
    ((qemu_thread_atexit_add me n w).heap p).mode = (w.heap p).mode := by
  unfold qemu_thread_atexit_add
  split
  · split <;> simp
  · simp only [World.store]
    split <;> simp_all

theorem registered_qemu_thread_data (me : Tid) (ns : List Notifier) (w : World) :
    (registered me ns w).qemu_thread_data = w.qemu_thread_data := by
  induction ns generalizing w with
  | nil => rfl
  | cons n ns ih =>
    simp only [registered, List.foldl_cons] at ih ⊢
    rw [ih, atexit_add_qemu_thread_data]

theorem registered_mode (me : Tid) (ns : List Notifier) (w : World) (p : Ptr) :
    ((registered me ns w).heap p).mode = (w.heap p).mode := by
  induction ns generalizing w with
  | nil => rfl
  | cons n ns ih =>
    simp only [registered, List.foldl_cons] at ih ⊢
    rw [ih, atexit_add_mode]

theorem exit_joinable (me : Tid) (v : Ptr) (w : World)
    (h : (w.heap (w.qemu_thread_data me)).mode = QEMU_THREAD_JOINABLE) :
    qemu_thread_exit me v w =
      run me w
        [Act.notifier_list_notify (w.qemu_thread_data me) (w.heap (w.qemu_thread_data me)).exit,
         Act.set_ret (w.qemu_thread_data me) v,
         Act.EnterCriticalSection (w.qemu_thread_data me),
         Act.set_exited (w.qemu_thread_data me),
         Act.LeaveCriticalSection (w.qemu_thread_data me),
         Act.endthreadex] := by
  simp [qemu_thread_exit, run, h]

theorem exit_not_joinable (me : Tid) (v : Ptr) (w : World)
    (h : (w.heap (w.qemu_thread_data me)).mode ≠ QEMU_THREAD_JOINABLE) :
    qemu_thread_exit me v w =
      run me w
        [Act.notifier_list_notify (w.qemu_thread_data me) (w.heap (w.qemu_thread_data me)).exit,
         Act.g_free (w.qemu_thread_data me),
         Act.endthreadex] := by
  simp [qemu_thread_exit, run, h]

theorem exit_mode (me : Tid) (v : Ptr) (w : World) (p : Ptr) :
    ((qemu_thread_exit me v w).heap p).mode = (w.heap p).mode := by
  unfold qemu_thread_exit
  simp only
  split <;> simp

theorem exit_joinable_ret (me : Tid) (v : Ptr) (w : World)
    (h : (w.heap (w.qemu_thread_data me)).mode = QEMU_THREAD_JOINABLE) :
    ((qemu_thread_exit me v w).heap (w.qemu_thread_data me)).ret = v := by
  rw [exit_joinable me v w h]
  simp [run, step_ret]

/-! ## What one call adds to the log -/

theorem run_log (me : Tid) (w : World) (as : List Act) :
    (run me w as).log = w.log ++ as.map (fun a => (me, a)) := by
  induction as generalizing w with
  | nil => simp [run]
  | cons a as ih =>
    simp only [run, List.foldl_cons] at ih ⊢
    rw [ih]; simp

theorem performed_run (me : Tid) (w : World) (as : List Act) :
    performed w (run me w as) = as.map (fun a => (me, a)) := by
  simp [performed, run_log]

theorem replay_log (w : World) (l : List (Tid × Act)) :
    (replay w l).log = w.log ++ l := by
  induction l generalizing w with
  | nil => simp [replay]
  | cons e l ih =>
    simp only [replay, List.foldl_cons] at ih ⊢
    rw [ih]; simp

theorem replay_mode (w : World) (l : List (Tid × Act)) (p : Ptr) :
    ((replay w l).heap p).mode = (w.heap p).mode := by
  induction l generalizing w with
  | nil => rfl
  | cons e l ih =>
    simp only [replay, List.foldl_cons] at ih ⊢
    rw [ih]; simp

theorem join_not_detached (host : Host) (me : Tid) (thread : QemuThread) (w : World)
    (h : (w.heap thread.data).mode ≠ QEMU_THREAD_DETACHED) :
    qemu_thread_join host me thread w =
      (run me
        (replay (run me w (join_head host thread (w.heap thread.data).exited))
          (join_meanwhile host me thread (w.heap thread.data).exited))
        (join_tail host thread (w.heap thread.data).exited),
       ((replay (run me w (join_head host thread (w.heap thread.data).exited))
          (join_meanwhile host me thread (w.heap thread.data).exited)).heap thread.data).ret) := by
  unfold qemu_thread_join qemu_thread_get_handle join_head join_tail join_meanwhile join_waits
  simp only [h, if_false]
  cases hx : (w.heap thread.data).exited <;>
    by_cases ho : host.OpenThread thread.tid = 0 <;>
    simp [run, replay, step_exited, step_ret, hx, ho, NULL]

theorem performed_join (host : Host) (me : Tid) (thread : QemuThread) (w : World)
    (h : (w.heap thread.data).mode ≠ QEMU_THREAD_DETACHED) :
    performed w (qemu_thread_join host me thread w).1 =
      (join_head host thread (w.heap thread.data).exited).map (fun a => (me, a)) ++
      join_meanwhile host me thread (w.heap thread.data).exited ++
      (join_tail host thread (w.heap thread.data).exited).map (fun a => (me, a)) := by
  rw [join_not_detached host me thread w h]
  simp [performed, run_log, replay_log]

theorem join_exited (host : Host) (me : Tid) (thread : QemuThread) (w : World)
    (h : (w.heap thread.data).mode ≠ QEMU_THREAD_DETACHED)
    (hx : (w.heap thread.data).exited = true) :
    qemu_thread_join host me thread w =
      (run me w
        [Act.EnterCriticalSection thread.data, Act.get_exited thread.data,
         Act.LeaveCriticalSection thread.data, Act.get_ret thread.data,
         Act.DeleteCriticalSection thread.data, Act.g_free thread.data],
       (w.heap thread.data).ret) := by
  rw [join_not_detached host me thread w h, hx]
  simp [join_head, join_tail, join_meanwhile, join_waits, run, replay, step_ret]

theorem exit_joinable_exited (me : Tid) (v : Ptr) (w : World)
    (h : (w.heap (w.qemu_thread_data me)).mode = QEMU_THREAD_JOINABLE) :
    ((qemu_thread_exit me v w).heap (w.qemu_thread_data me)).exited = true := by
  rw [exit_joinable me v w h]
  simp [run, step_exited]

theorem join_after_exit (host : Host) (me joiner : Tid) (thread : QemuThread) (v : Ptr)
    (w : World) (hself : w.qemu_thread_data me = thread.data)
    (hmode : (w.heap thread.data).mode = QEMU_THREAD_JOINABLE) :
    qemu_thread_join host joiner thread (qemu_thread_exit me v w) =
      (run joiner (qemu_thread_exit me v w)
        [Act.EnterCriticalSection thread.data, Act.get_exited thread.data,
         Act.LeaveCriticalSection thread.data, Act.get_ret thread.data,
         Act.DeleteCriticalSection thread.data, Act.g_free thread.data], v) := by
  have hm : (w.heap (w.qemu_thread_data me)).mode = QEMU_THREAD_JOINABLE := by
    rw [hself]; exact hmode
  have hne : ((qemu_thread_exit me v w).heap thread.data).mode ≠ QEMU_THREAD_DETACHED := by
    rw [exit_mode, hmode]; decide
  have hx : ((qemu_thread_exit me v w).heap thread.data).exited = true := by
    rw [← hself]; exact exit_joinable_exited me v w hm
  have hr : ((qemu_thread_exit me v w).heap thread.data).ret = v := by
    rw [← hself]; exact exit_joinable_ret me v w hm
  rw [join_exited host joiner thread _ hne hx, hr]

/-! ## Joining returns the exit value -/

/-- C1: a joinable thread that ends through `qemu_thread_exit v`, called directly or
by the trampoline `win32_start_routine` with the value its start routine returned,
makes a later `qemu_thread_join` on its control block return exactly `v`. -/
theorem join_returns_exit_value (host : Host) (me joiner : Tid) (thread : QemuThread)
    (v : Ptr) (w : World)
    (hmode : (w.heap thread.data).mode = QEMU_THREAD_JOINABLE) :
    (w.qemu_thread_data me = thread.data →
      (qemu_thread_join host joiner thread (qemu_thread_exit me v w)).2 = v) ∧
    (((w.heap thread.data).start_routine (w.heap thread.data).arg).finish = Finish.returns v ∨
      ((w.heap thread.data).start_routine (w.heap thread.data).arg).finish = Finish.exits v →
      (qemu_thread_join host joiner thread (win32_start_routine me thread.data w)).2 = v) := by
  have hne : QEMU_THREAD_JOINABLE ≠ QEMU_THREAD_DETACHED := by decide
  constructor
  · intro hself
    rw [join_after_exit host me joiner thread v w hself hmode]
  · intro hfin
    have key : ∀ w2 : World, w2.qemu_thread_data me = thread.data →
        (w2.heap thread.data).mode = QEMU_THREAD_JOINABLE →
        (qemu_thread_join host joiner thread (qemu_thread_exit me v w2)).2 = v := by
      intro w2 hself hm2
      rw [join_after_exit host me joiner thread v w2 hself hm2]
    unfold win32_start_routine run_start_routine
    rcases hfin with hfin | hfin <;> simp only [hfin] <;> apply key
    · rw [registered_qemu_thread_data]; simp
    · rw [registered_mode]; exact hmode
    · rw [registered_qemu_thread_data]; simp
    · rw [registered_mode]; exact hmode

/-- Witness of C1: the thread of `World.running`, joinable, whose start routine
returns 42. -/
theorem join_returns_exit_value_witness :
    ((World.running QEMU_THREAD_JOINABLE).heap QemuThread.seven.data).mode =
      QEMU_THREAD_JOINABLE ∧
    (World.running QEMU_THREAD_JOINABLE).qemu_thread_data 7 = QemuThread.seven.data ∧
    (qemu_thread_join Host.plain 1 QemuThread.seven
        (qemu_thread_exit 7 42 (World.running QEMU_THREAD_JOINABLE))).2 = 42 ∧
    (qemu_thread_join Host.plain 1 QemuThread.seven
        (win32_start_routine 7 8 (World.running QEMU_THREAD_JOINABLE))).2 = 42 :=
  ⟨by rfl, by rfl,
   (join_returns_exit_value Host.plain 7 1 QemuThread.seven 42
      (World.running QEMU_THREAD_JOINABLE) (by rfl)).1 (by rfl),
   (join_returns_exit_value Host.plain 7 1 QemuThread.seven 42
      (World.running QEMU_THREAD_JOINABLE) (by rfl)).2 (Or.inl (by rfl))⟩

theorem accesses_others (ok : Nat → Bool) (t : Tid) (d : Ptr) (a : Act) (depth : Nat)
    (l rest : List (Tid × Act)) :
    accesses ok t d a depth (others t l ++ rest) = accesses ok t d a depth rest := by
  induction l with
  | nil => rfl
  | cons e l ih =>
    rcases e with ⟨u, b⟩
    by_cases hu : u = t
    · simpa [others, hu] using ih
    · have hcons : others t ((u, b) :: l) = (u, b) :: others t l := by
        simp [others, hu]
      rw [hcons, List.cons_append]
      simp only [accesses, hu, false_and, if_false]
      exact ih

/-! ## The exclusive section of a control block -/

/-- C2 fails as stated: for the joinable thread of `World.running`, the exit call
writes the return value while the section is not held, and the join reads the
return value while the section is not held. -/
theorem ret_access_not_inside_section :
    ((World.running QEMU_THREAD_JOINABLE).heap 8).mode = QEMU_THREAD_JOINABLE ∧
    (7, Act.set_ret 8 42) ∈
      performed (World.running QEMU_THREAD_JOINABLE)
        (qemu_thread_exit 7 42 (World.running QEMU_THREAD_JOINABLE)) ∧
    inside_cs 7 8 (Act.set_ret 8 42)
      (performed (World.running QEMU_THREAD_JOINABLE)
        (qemu_thread_exit 7 42 (World.running QEMU_THREAD_JOINABLE))) = false ∧
    (1, Act.get_ret 8) ∈
      performed (qemu_thread_exit 7 42 (World.running QEMU_THREAD_JOINABLE))
        (qemu_thread_join Host.plain 1 QemuThread.seven
          (qemu_thread_exit 7 42 (World.running QEMU_THREAD_JOINABLE))).1 ∧
    inside_cs 1 8 (Act.get_ret 8)
      (performed (qemu_thread_exit 7 42 (World.running QEMU_THREAD_JOINABLE))
        (qemu_thread_join Host.plain 1 QemuThread.seven
          (qemu_thread_exit 7 42 (World.running QEMU_THREAD_JOINABLE))).1) = false := by
  refine ⟨by rfl, by decide, by decide, by decide, by decide⟩

/-- C2 as amended: for a joinable control block, the exit call writes `exited = true`
inside the section and writes the return value before it enters the section; the
join reads the `exited` flag inside the section and reads the return value after it
has left the section. -/
theorem section_guards_exited_only (host : Host) (me joiner : Tid) (thread : QemuThread)
    (v : Ptr) (w : World)
    (hmode : (w.heap thread.data).mode = QEMU_THREAD_JOINABLE) :
    (w.qemu_thread_data me = thread.data →
      (me, Act.set_exited thread.data) ∈ performed w (qemu_thread_exit me v w) ∧
      inside_cs me thread.data (Act.set_exited thread.data)
        (performed w (qemu_thread_exit me v w)) = true ∧
      (me, Act.set_ret thread.data v) ∈ performed w (qemu_thread_exit me v w) ∧
      outside_cs me thread.data (Act.set_ret thread.data v)
        (performed w (qemu_thread_exit me v w)) = true ∧
      (performed w (qemu_thread_exit me v w)).indexOf (me, Act.set_ret thread.data v) <
        (performed w (qemu_thread_exit me v w)).indexOf
          (me, Act.EnterCriticalSection thread.data)) ∧
    ((joiner, Act.get_exited thread.data) ∈
        performed w (qemu_thread_join host joiner thread w).1 ∧
      inside_cs joiner thread.data (Act.get_exited thread.data)
        (performed w (qemu_thread_join host joiner thread w).1) = true ∧
      (joiner, Act.get_ret thread.data) ∈
        performed w (qemu_thread_join host joiner thread w).1 ∧
      outside_cs joiner thread.data (Act.get_ret thread.data)
        (performed w (qemu_thread_join host joiner thread w).1) = true ∧
      (performed w (qemu_thread_join host joiner thread w).1).indexOf
          (joiner, Act.LeaveCriticalSection thread.data) <
        (performed w (qemu_thread_join host joiner thread w).1).indexOf
          (joiner, Act.get_ret thread.data)) := by
  have hne : (w.heap thread.data).mode ≠ QEMU_THREAD_DETACHED := by
    rw [hmode]; decide
  constructor
  · intro hself
    have hm : (w.heap (w.qemu_thread_data me)).mode = QEMU_THREAD_JOINABLE := by
      rw [hself]; exact hmode
    rw [exit_joinable me v w hm, performed_run, hself]
    simp [inside_cs, outside_cs, accesses, List.indexOf_cons, cond_eq_if]
  · rw [performed_join host joiner thread w hne]
    cases hx : (w.heap thread.data).exited <;>
      by_cases ho : host.OpenThread thread.tid = 0 <;>
      simp [join_head, join_tail, join_meanwhile, join_waits, inside_cs, outside_cs, accesses,
        accesses_others, List.indexOf_cons, cond_eq_if, ho, NULL]

/-- Witness of C2 as amended: the joinable thread of `World.running`. -/
theorem section_guards_exited_only_witness :
    ((World.running QEMU_THREAD_JOINABLE).heap QemuThread.seven.data).mode =
      QEMU_THREAD_JOINABLE ∧
    inside_cs 7 8 (Act.set_exited 8)
      (performed (World.running QEMU_THREAD_JOINABLE)
        (qemu_thread_exit 7 42 (World.running QEMU_THREAD_JOINABLE))) = true ∧
    outside_cs 7 8 (Act.set_ret 8 42)
      (performed (World.running QEMU_THREAD_JOINABLE)
        (qemu_thread_exit 7 42 (World.running QEMU_THREAD_JOINABLE))) = true :=
  ⟨by rfl,
   ((section_guards_exited_only Host.plain 7 1 QemuThread.seven 42
      (World.running QEMU_THREAD_JOINABLE) (by rfl)).1 (by rfl)).2.1,
   ((section_guards_exited_only Host.plain 7 1 QemuThread.seven 42
      (World.running QEMU_THREAD_JOINABLE) (by rfl)).1 (by rfl)).2.2.2.1⟩

/-! ## What a join waits for -/

/-- C4: a join on a control block whose mode is detached returns the null pointer at
once: the state is left exactly as it was, so the block is neither modified nor
released, and the call adds nothing to the log, so no host thread is re-opened and
nothing is waited on. -/
theorem join_detached_returns_null (host : Host) (joiner : Tid) (thread : QemuThread)
    (w : World)
    (hmode : (w.heap thread.data).mode = QEMU_THREAD_DETACHED) :
    (qemu_thread_join host joiner thread w).2 = NULL ∧
    (qemu_thread_join host joiner thread w).1 = w ∧
    performed w (qemu_thread_join host joiner thread w).1 = [] := by
  simp [qemu_thread_join, hmode, performed]

/-- Witness of C4: the thread of `World.running` in detached mode. -/
theorem join_detached_returns_null_witness :
    ((World.running QEMU_THREAD_DETACHED).heap QemuThread.seven.data).mode =
      QEMU_THREAD_DETACHED ∧
    (qemu_thread_join Host.plain 1 QemuThread.seven
        (World.running QEMU_THREAD_DETACHED)).2 = NULL ∧
    performed (World.running QEMU_THREAD_DETACHED)
      (qemu_thread_join Host.plain 1 QemuThread.seven
        (World.running QEMU_THREAD_DETACHED)).1 = [] :=
  ⟨by rfl,
   (join_detached_returns_null Host.plain 1 QemuThread.seven
      (World.running QEMU_THREAD_DETACHED) (by rfl)).1,
   (join_detached_returns_null Host.plain 1 QemuThread.seven
      (World.running QEMU_THREAD_DETACHED) (by rfl)).2.2⟩

/-! ## Releases of a control block -/

theorem frees_step (me : Tid) (w : World) (a : Act) (p : Ptr) :
    frees p (step me w a).log = frees p w.log + (if a = Act.g_free p then 1 else 0) := by
  simp only [step_log, frees, List.countP_append, List.countP_cons, List.countP_nil]
  split <;> simp_all

theorem load_set_thread_description_heap (host : Host) (me : Tid) (w : World) :
    (load_set_thread_description host me w).1.heap = w.heap := by
  unfold load_set_thread_description
  simp only
  split
  · split
    · split <;> simp [step]
    · simp [step]
  · rfl

theorem load_set_thread_description_frees (host : Host) (me : Tid) (w : World) (p : Ptr) :
    frees p (load_set_thread_description host me w).1.log = frees p w.log := by
  unfold load_set_thread_description
  simp only
  split
  · split
    · split <;> simp [step, frees, List.countP_append, List.countP_cons]
    · simp [step, frees, List.countP_append, List.countP_cons]
  · rfl

theorem set_thread_description_heap (host : Host) (me : Tid) (h : HANDLE) (name : Ptr)
    (w : World) :
    (set_thread_description host me h name w).1.heap = w.heap := by
  unfold set_thread_description
  simp only
  split
  · exact load_set_thread_description_heap host me w
  · split
    · exact load_set_thread_description_heap host me w
    · simp [step, load_set_thread_description_heap]

theorem set_thread_description_frees (host : Host) (me : Tid) (h : HANDLE) (name : Ptr)
    (w : World) (p : Ptr) :
    frees p (set_thread_description host me h name w).1.log = frees p w.log := by
  unfold set_thread_description
  simp only
  split
  · exact load_set_thread_description_frees host me w p
  · split
    · exact load_set_thread_description_frees host me w p
    · rw [frees_step, load_set_thread_description_frees]; simp

theorem step_heap_of_plain (me : Tid) (w : World) (a : Act)
    (h1 : ∀ d v, a ≠ Act.set_ret d v) (h2 : ∀ d, a ≠ Act.set_exited d) :
    (step me w a).heap = w.heap := by
  cases a <;> first | rfl | (exfalso; first | exact h1 _ _ rfl | exact h2 _ rfl)

theorem create_spec (host : Host) (me : Tid) (name : Ptr) (start_routine : Ptr → Body)
    (arg : Ptr) (mode : Int) (w : World) (hh : host.beginthreadex_handle ≠ NULL) :
    ∃ w1, qemu_thread_create host me name start_routine arg mode w =
        Except.ok (w1, { data := host.g_malloc, tid := host.beginthreadex_tid }) ∧
      (w1.heap host.g_malloc).mode = toShort mode ∧
      (w1.heap host.g_malloc).exited = false ∧
      (w1.heap host.g_malloc).exit = [] ∧
      (w1.heap host.g_malloc).start_routine = start_routine ∧
      (w1.heap host.g_malloc).arg = arg ∧
      (∀ p, frees p w1.log = frees p w.log) := by
  unfold qemu_thread_create
  simp only [hh, if_false]
  refine ⟨_, rfl, ?_⟩
  have hheap : ∀ w0 : World,
      (step me
        (if (w0.name_threads && decide (name ≠ NULL)) = true then
          (match set_thread_description host me host.beginthreadex_handle name w0 with
            | (w, ok) =>
              if (!ok) = true then step me w (Act.fprintf_failed_to_set_description name) else w)
        else w0) (Act.CloseHandle host.beginthreadex_handle)).heap = w0.heap := by
    intro w0
    rw [step_heap_of_plain _ _ _ (by simp) (by simp)]
    split
    · have hs := set_thread_description_heap host me host.beginthreadex_handle name w0
      split
      next w2 ok heq =>
        rw [heq] at hs
        split
        · rw [step_heap_of_plain _ _ _ (by simp) (by simp)]; exact hs
        · exact hs
    · rfl
  have hfrees : ∀ (w0 : World) (p : Ptr),
      frees p (step me
        (if (w0.name_threads && decide (name ≠ NULL)) = true then
          (match set_thread_description host me host.beginthreadex_handle name w0 with
            | (w, ok) =>
              if (!ok) = true then step me w (Act.fprintf_failed_to_set_description name) else w)
        else w0) (Act.CloseHandle host.beginthreadex_handle)).log = frees p w0.log := by
    intro w0 p
    rw [frees_step]
    split
    · have hs := set_thread_description_frees host me host.beginthreadex_handle name w0 p
      split
      next w2 ok heq =>
        rw [heq] at hs
        split
        · rw [frees_step, hs]; simp
        · rw [hs]; simp
    · simp
  simp only [hheap, hfrees]
  refine ⟨?_, ?_, ?_, ?_, ?_, ?_⟩
  · simp [step, World.store]
    split <;> simp [step, World.store]
  · simp [step, World.store]
    split <;> simp [step, World.store]
  · simp [step, World.store]
    split <;> simp [step, World.store, notifier_list_init]
  · simp [step, World.store]
    split <;> simp [step, World.store]
  · simp [step, World.store]
    split <;> simp [step, World.store]
  · intro p
    rw [frees_step]
    split <;> simp [frees_step, World.store, step, frees, List.countP_append, List.countP_cons]

theorem toInt32_of_lt (n : Nat) (h : n < 4294967296) :
    (toInt32 n = 0 ↔ n = 0) ∧ (toInt32 n = 258 ↔ n = 258) ∧ (toInt32 n = 1460 ↔ n = 1460) := by
  unfold toInt32
  rw [Nat.mod_eq_of_lt h]
  split <;> omega

theorem timedwait_cases (cond : QemuCond) (ms sleep : Int) (lastError : Nat)
    (hinit : cond.initialized = true) (hdword : lastError < 4294967296) :
    (Except.map Prod.fst (qemu_cond_timedwait_impl cond ms sleep lastError) = Except.ok true ↔
      (sleep ≠ 0 ∨ lastError = 0)) ∧
    (Except.map Prod.fst (qemu_cond_timedwait_impl cond ms sleep lastError) = Except.ok false ↔
      (sleep = 0 ∧ (lastError : Int) = ERROR_TIMEOUT)) ∧
    ((∃ e, qemu_cond_timedwait_impl cond ms sleep lastError = Except.error e) ↔
      (sleep = 0 ∧ lastError ≠ 0 ∧ (lastError : Int) ≠ ERROR_TIMEOUT)) ∧
    (∀ e, qemu_cond_timedwait_impl cond ms sleep lastError = Except.error e →
      e = Fatal.error_exit (toInt32 lastError)) := by
  obtain ⟨h0, -, ht⟩ := toInt32_of_lt lastError hdword
  have hcast : ((lastError : Int) = 1460 ↔ lastError = 1460) := by omega
  unfold qemu_cond_timedwait_impl
  simp only [hinit, ERROR_TIMEOUT, hcast]
  by_cases hs : sleep = 0
  · by_cases hz : lastError = 0
    · subst hz; simp [hs, toInt32, Except.map]
    · by_cases hto : lastError = 1460
      · subst hto; simp [hs, toInt32, Except.map]
      · have h0' : toInt32 lastError ≠ 0 := fun h => hz (h0.mp h)
        have ht' : toInt32 lastError ≠ 1460 := fun h => hto (ht.mp h)
        simp [hs, hz, hto, h0', ht', Except.map]
        omega
  · simp [hs, Except.map]

/-- C6: on an initialised condition variable, for every outcome of the host wait (a
failed `SleepConditionVariableSRW` leaves a last-error code other than 0, as the host
contract says): the timed wait returns true exactly when the host wait succeeded,
returns false exactly when the host wait failed with `ERROR_TIMEOUT`, and aborts
through `error_exit` exactly when the host wait failed with another code; a failed
host wait is never returned as true. -/
theorem timedwait_reports_outcome (cond : QemuCond) (ms sleep : Int) (lastError : Nat)
    (hinit : cond.initialized = true) (hdword : lastError < 4294967296)
    (hhost : sleep = 0 → lastError ≠ 0) :
    (Except.map Prod.fst (qemu_cond_timedwait_impl cond ms sleep lastError) = Except.ok true ↔
      sleep ≠ 0) ∧
    (Except.map Prod.fst (qemu_cond_timedwait_impl cond ms sleep lastError) = Except.ok false ↔
      (sleep = 0 ∧ (lastError : Int) = ERROR_TIMEOUT)) ∧
    (qemu_cond_timedwait_impl cond ms sleep lastError =
        Except.error (Fatal.error_exit (toInt32 lastError)) ↔
      (sleep = 0 ∧ (lastError : Int) ≠ ERROR_TIMEOUT)) ∧
    (sleep = 0 →
      Except.map Prod.fst (qemu_cond_timedwait_impl cond ms sleep lastError) ≠
        Except.ok true) := by
  obtain ⟨h1, h2, h3, h4⟩ := timedwait_cases cond ms sleep lastError hinit hdword
  have htrue : Except.map Prod.fst (qemu_cond_timedwait_impl cond ms sleep lastError) =
      Except.ok true ↔ sleep ≠ 0 := by
    rw [h1]
    constructor
    · rintro (h | h)
      · exact h
      · exact fun hs => hhost hs h
    · exact fun h => Or.inl h
  refine ⟨htrue, h2, ?_, ?_⟩
  · constructor
    · intro he
      obtain ⟨hs, -, ht⟩ := h3.mp ⟨_, he⟩
      exact ⟨hs, ht⟩
    · rintro ⟨hs, ht⟩
      obtain ⟨e, he⟩ := h3.mpr ⟨hs, hhost hs, ht⟩
      rw [he, h4 e he]
  · intro hs h
    exact htrue.mp h hs

/-- Witness of C6: a wait of 100 ms that times out returns false. -/
theorem timedwait_reports_outcome_witness :
    ({ initialized := true } : QemuCond).initialized = true ∧ (1460 : Nat) < 4294967296 ∧
    ((0 : Int) = 0 → (1460 : Nat) ≠ 0) ∧
    Except.map Prod.fst (qemu_cond_timedwait_impl { initialized := true } 100 0 1460) =
      Except.ok false :=
  ⟨rfl, by decide, fun _ => by decide,
   (timedwait_reports_outcome { initialized := true } 100 0 1460 rfl (by decide)
     (fun _ => by decide)).2.1.mpr ⟨rfl, by decide⟩⟩

/-- C7: on an initialised semaphore, the timed wait returns 0 exactly when the host
wait handed back `WAIT_OBJECT_0`, returns -1 exactly when it handed back
`WAIT_TIMEOUT`, aborts through `error_exit` for every other host result, and returns
no other value. -/
theorem sem_timedwait_result (sem : QemuSemaphore) (ms : Int) (wait lastError : Nat)
    (hinit : sem.initialized = true) (hdword : wait < 4294967296) :
    (Except.map Prod.fst (qemu_sem_timedwait sem ms wait lastError) = Except.ok 0 ↔
      (wait : Int) = WAIT_OBJECT_0) ∧
    (Except.map Prod.fst (qemu_sem_timedwait sem ms wait lastError) = Except.ok (-1) ↔
      (wait : Int) = WAIT_TIMEOUT) ∧
    (qemu_sem_timedwait sem ms wait lastError =
        Except.error (Fatal.error_exit (toInt32 lastError)) ↔
      ((wait : Int) ≠ WAIT_OBJECT_0 ∧ (wait : Int) ≠ WAIT_TIMEOUT)) ∧
    (∀ r, Except.map Prod.fst (qemu_sem_timedwait sem ms wait lastError) = Except.ok r →
      r = 0 ∨ r = -1) := by
  obtain ⟨h0, ht, -⟩ := toInt32_of_lt wait hdword
  have hc0 : ((wait : Int) = 0 ↔ wait = 0) := by omega
  have hc1 : ((wait : Int) = 258 ↔ wait = 258) := by omega
  unfold qemu_sem_timedwait
  simp only [hinit, WAIT_OBJECT_0, WAIT_TIMEOUT, hc0, hc1]
  by_cases hz : wait = 0
  · subst hz; simp [toInt32, Except.map]
  · by_cases hto : wait = 258
    · subst hto; simp [toInt32, Except.map]
    · have h0' : toInt32 wait ≠ 0 := fun h => hz (h0.mp h)
      have ht' : toInt32 wait ≠ 258 := fun h => hto (ht.mp h)
      simp [hz, hto, h0', ht', Except.map]
      omega

/-- Witness of C7: `WAIT_FAILED` (all bits set) with last-error code 6 aborts. -/
theorem sem_timedwait_result_witness :
    ({ sema := 5, initialized := true } : QemuSemaphore).initialized = true ∧
    (4294967295 : Nat) < 4294967296 ∧
    qemu_sem_timedwait { sema := 5, initialized := true } 100 4294967295 6 =
      Except.error (Fatal.error_exit (toInt32 6)) :=
  ⟨rfl, by decide,
   (sem_timedwait_result { sema := 5, initialized := true } 100 4294967295 6 rfl
     (by decide)).2.2.1.mpr ⟨by decide, by decide⟩⟩

/-- C8: on an initialised lock, the try-lock operations return without aborting and
make only the non-blocking host call. The mutex variant returns 0 exactly when the
host try-acquire succeeded, and then (and only then) runs the post-lock hook; it
returns `-EBUSY` otherwise. The recursive variant returns 0 exactly when the host
try-enter succeeded and a nonzero value otherwise. -/
theorem trylock_result (mutex : QemuMutex) (rec_mutex : QemuRecMutex) (tryAcquire : Nat)
    (tryEnter : Int)
    (hinit : mutex.initialized = true) (hrec : rec_mutex.initialized = true)
    (hbool : tryAcquire < 256) :
    (tryAcquire ≠ 0 →
      qemu_mutex_trylock_impl mutex tryAcquire =
        Except.ok (0, [Call.TryAcquireSRWLockExclusive, Call.qemu_mutex_post_lock])) ∧
    (tryAcquire = 0 →
      qemu_mutex_trylock_impl mutex tryAcquire =
        Except.ok (-EBUSY, [Call.TryAcquireSRWLockExclusive])) ∧
    (Except.map Prod.fst (qemu_mutex_trylock_impl mutex tryAcquire) = Except.ok 0 ↔
      tryAcquire ≠ 0) ∧
    (∃ r, qemu_rec_mutex_trylock_impl rec_mutex tryEnter =
        Except.ok (r, [Call.TryEnterCriticalSection]) ∧
      (r = 0 ↔ tryEnter ≠ 0)) := by
  have hmod : tryAcquire % 256 = tryAcquire := Nat.mod_eq_of_lt hbool
  unfold qemu_mutex_trylock_impl qemu_rec_mutex_trylock_impl
  simp only [hinit, hrec, hmod]
  by_cases hz : tryAcquire = 0
  · subst hz
    refine ⟨by simp, by simp, by simp [Except.map, EBUSY], ?_⟩
    by_cases he : tryEnter = 0 <;> simp [he]
  · have hz' : (tryAcquire : Int) ≠ 0 := by omega
    refine ⟨by simp [hz, hz'], by simp [hz], by simp [Except.map, hz, hz'], ?_⟩
    by_cases he : tryEnter = 0 <;> simp [he]

/-- Witness of C8: a contended mutex and a contended recursive mutex. -/
theorem trylock_result_witness :
    ({ initialized := true } : QemuMutex).initialized = true ∧
    ({ initialized := true } : QemuRecMutex).initialized = true ∧ (0 : Nat) < 256 ∧
    qemu_mutex_trylock_impl { initialized := true } 0 =
      Except.ok (-EBUSY, [Call.TryAcquireSRWLockExclusive]) :=
  ⟨rfl, rfl, by decide,
   (trylock_result { initialized := true } { initialized := true } 0 0 rfl rfl
     (by decide)).2.1 rfl⟩

/-! ## Registration of exit notifiers -/

theorem atexit_add_unmanaged (me : Tid) (n : Notifier) (w : World)
    (h : w.qemu_thread_data me = NULL) :
    (qemu_thread_atexit_add me n w).atexit_registered = true ∧
    atexits (qemu_thread_atexit_add me n w).log =
      atexits w.log + (if w.atexit_registered = true then 0 else 1) ∧
    (qemu_thread_atexit_add me n w).main_thread_exit =
      notifier_list_add w.main_thread_exit n ∧
    (qemu_thread_atexit_add me n w).heap = w.heap := by
  unfold qemu_thread_atexit_add
  simp only [h, if_true]
  cases hr : w.atexit_registered <;>
    simp [hr, step, atexits, List.countP_append, List.countP_cons]

theorem atexit_add_managed (me : Tid) (n : Notifier) (w : World)
    (h : w.qemu_thread_data me ≠ NULL) :
    (qemu_thread_atexit_add me n w).atexit_registered = w.atexit_registered ∧
    (qemu_thread_atexit_add me n w).log = w.log ∧
    (qemu_thread_atexit_add me n w).main_thread_exit = w.main_thread_exit ∧
    ((qemu_thread_atexit_add me n w).heap (w.qemu_thread_data me)).exit =
      notifier_list_add (w.heap (w.qemu_thread_data me)).exit n ∧
    (∀ p, p ≠ w.qemu_thread_data me →
      (qemu_thread_atexit_add me n w).heap p = w.heap p) := by
  unfold qemu_thread_atexit_add
  simp only [h, if_false]
  refine ⟨rfl, rfl, rfl, by simp [World.store], ?_⟩
  intro p hp
  simp [World.store, hp]

theorem atexit_adds_spec (calls : List (Tid × Notifier)) (w : World) :
    (atexit_adds calls w).atexit_registered =
      (w.atexit_registered || calls.any (fun c => decide (w.qemu_thread_data c.1 = NULL))) ∧
    atexits (atexit_adds calls w).log =
      atexits w.log +
        (if w.atexit_registered = false ∧
            calls.any (fun c => decide (w.qemu_thread_data c.1 = NULL)) = true then 1 else 0) ∧
    (atexit_adds calls w).main_thread_exit =
      added w.main_thread_exit
        (calls.filter (fun c => decide (w.qemu_thread_data c.1 = NULL))) ∧
    (∀ d, d ≠ NULL →
      ((atexit_adds calls w).heap d).exit =
        added (w.heap d).exit (calls.filter (fun c => decide (w.qemu_thread_data c.1 = d)))) := by
  induction calls generalizing w with
  | nil => simp [atexit_adds, added]
  | cons c cs ih =>
    have hstep : atexit_adds (c :: cs) w = atexit_adds cs (qemu_thread_atexit_add c.1 c.2 w) := rfl
    obtain ⟨ih1, ih2, ih3, ih4⟩ := ih (qemu_thread_atexit_add c.1 c.2 w)
    rw [hstep, ih1, ih2, ih3]
    simp only [atexit_add_qemu_thread_data] at ih4 ⊢
    by_cases hc : w.qemu_thread_data c.1 = NULL
    · obtain ⟨h1, h2, h3, h4⟩ := atexit_add_unmanaged c.1 c.2 w hc
      rw [h1, h2, h3]
      refine ⟨by simp [hc], ?_, by simp [hc, added], ?_⟩
      · cases hr : w.atexit_registered <;> simp [hc]
      · intro d hd
        have hcd : ¬ w.qemu_thread_data c.1 = d := by
          rw [hc]; exact fun h => hd h.symm
        rw [ih4 d hd, h4]
        simp [hcd]
    · obtain ⟨h1, h2, h3, h4, h5⟩ := atexit_add_managed c.1 c.2 w hc
      rw [h1, h2, h3]
      have hdec : decide (w.qemu_thread_data c.1 = NULL) = false := by simp [hc]
      refine ⟨by simp [hc], ?_, by simp [hc], ?_⟩
      · simp only [List.any_cons, hdec, Bool.false_or]
      intro d hd
      rw [ih4 d hd]
      by_cases hcd : w.qemu_thread_data c.1 = d
      · subst hcd
        rw [h4]
        simp [added]
      · rw [h5 d (fun h => hcd h.symm)]
        simp [hcd]

/-- C9: for every sequence of `qemu_thread_atexit_add` calls made from a state in
which the exit hook is not yet registered. A call on a managed thread adds the
notifier to the list of that thread's control block and leaves the process-wide
list, the registration flag and the log untouched; a call from an unmanaged context
adds it to the process-wide list. After the sequence, the process-wide list holds
the notifiers of the unmanaged calls, each control block holds those of the calls
made on its thread, and `run_main_thread_exit` has been registered with `atexit`
exactly once if some call was unmanaged and not at all otherwise. -/
theorem atexit_add_sequence (calls : List (Tid × Notifier)) (w : World)
    (hflag : w.atexit_registered = false) (hlog : atexits w.log = 0) :
    (∀ (w0 : World) (me : Tid) (n : Notifier), w0.qemu_thread_data me ≠ NULL →
      ((qemu_thread_atexit_add me n w0).heap (w0.qemu_thread_data me)).exit =
        notifier_list_add (w0.heap (w0.qemu_thread_data me)).exit n ∧
      (qemu_thread_atexit_add me n w0).main_thread_exit = w0.main_thread_exit ∧
      (qemu_thread_atexit_add me n w0).atexit_registered = w0.atexit_registered ∧
      (qemu_thread_atexit_add me n w0).log = w0.log) ∧
    (∀ (w0 : World) (me : Tid) (n : Notifier), w0.qemu_thread_data me = NULL →
      (qemu_thread_atexit_add me n w0).main_thread_exit =
        notifier_list_add w0.main_thread_exit n ∧
      (qemu_thread_atexit_add me n w0).heap = w0.heap) ∧
    (atexit_adds calls w).main_thread_exit =
      added w.main_thread_exit
        (calls.filter (fun c => decide (w.qemu_thread_data c.1 = NULL))) ∧
    (∀ d, d ≠ NULL →
      ((atexit_adds calls w).heap d).exit =
        added (w.heap d).exit (calls.filter (fun c => decide (w.qemu_thread_data c.1 = d)))) ∧
    atexits (atexit_adds calls w).log =
      (if calls.any (fun c => decide (w.qemu_thread_data c.1 = NULL)) = true then 1 else 0) := by
  obtain ⟨-, h2, h3, h4⟩ := atexit_adds_spec calls w
  refine ⟨?_, ?_, h3, h4, ?_⟩
  · intro w0 me n hm
    obtain ⟨a, b, c, d, -⟩ := atexit_add_managed me n w0 hm
    exact ⟨d, c, a, b⟩
  · intro w0 me n hu
    obtain ⟨-, -, c, d⟩ := atexit_add_unmanaged me n w0 hu
    exact ⟨c, d⟩
  · rw [h2, hlog]
    split_ifs <;> simp_all

/-- Witness of C9: from the state of `World.running`, thread 7 (managed, block 8)
registers 31, the unmanaged threads 1 and 2 register 32 and 33, thread 7 registers
34. -/
theorem atexit_add_sequence_witness :
    (World.running QEMU_THREAD_JOINABLE).atexit_registered = false ∧
    atexits (World.running QEMU_THREAD_JOINABLE).log = 0 ∧
    (atexit_adds [(7, 31), (1, 32), (2, 33), (7, 34)]
      (World.running QEMU_THREAD_JOINABLE)).main_thread_exit = [32, 33] ∧
    ((atexit_adds [(7, 31), (1, 32), (2, 33), (7, 34)]
      (World.running QEMU_THREAD_JOINABLE)).heap 8).exit = [21, 31, 34] ∧
    atexits (atexit_adds [(7, 31), (1, 32), (2, 33), (7, 34)]
      (World.running QEMU_THREAD_JOINABLE)).log = 1 :=
  ⟨rfl, rfl,
   (atexit_add_sequence [(7, 31), (1, 32), (2, 33), (7, 34)]
      (World.running QEMU_THREAD_JOINABLE) rfl rfl).2.2.1,
   (atexit_add_sequence [(7, 31), (1, 32), (2, 33), (7, 34)]
      (World.running QEMU_THREAD_JOINABLE) rfl rfl).2.2.2.1 8 (by decide),
   (atexit_add_sequence [(7, 31), (1, 32), (2, 33), (7, 34)]
      (World.running QEMU_THREAD_JOINABLE) rfl rfl).2.2.2.2⟩

/-! ## Exit notifiers run first -/

theorem map_snd_tagged (me : Tid) (as : List Act) :
    (as.map (fun a => (me, a))).map Prod.snd = as := by
  induction as with
  | nil => rfl
  | cons a as ih => simp

theorem notified_in_every_later_state (me : Tid) (w : World) (a : Act) (rest : List Act)
    (k : Nat) :
    run me w ((a :: rest).take k) = w ∨
      (me, a) ∈ performed w (run me w ((a :: rest).take k)) := by
  cases k with
  | zero => left; rfl
  | succ k =>
    right
    rw [performed_run]
    simp

/-- C10: in every mode, `qemu_thread_exit` runs the private exit-notifier list of
the exiting thread exactly once, as its first action: before the return value and
the `exited` flag are written (joinable) and before the control block is released
(otherwise). Replaying the actions of the call one by one, every intermediate state
is either the state before the call or has the notification in its log; hence a
state in which `exited` has become true has the notification behind it. -/
theorem exit_notifies_first (me : Tid) (v : Ptr) (w : World) :
    ((w.heap (w.qemu_thread_data me)).mode = QEMU_THREAD_JOINABLE →
      performed w (qemu_thread_exit me v w) =
        [(me, Act.notifier_list_notify (w.qemu_thread_data me)
            (w.heap (w.qemu_thread_data me)).exit),
         (me, Act.set_ret (w.qemu_thread_data me) v),
         (me, Act.EnterCriticalSection (w.qemu_thread_data me)),
         (me, Act.set_exited (w.qemu_thread_data me)),
         (me, Act.LeaveCriticalSection (w.qemu_thread_data me)),
         (me, Act.endthreadex)]) ∧
    ((w.heap (w.qemu_thread_data me)).mode ≠ QEMU_THREAD_JOINABLE →
      performed w (qemu_thread_exit me v w) =
        [(me, Act.notifier_list_notify (w.qemu_thread_data me)
            (w.heap (w.qemu_thread_data me)).exit),
         (me, Act.g_free (w.qemu_thread_data me)),
         (me, Act.endthreadex)]) ∧
    (performed w (qemu_thread_exit me v w)).countP (fun e => e.2.isNotify) = 1 ∧
    run me w ((performed w (qemu_thread_exit me v w)).map Prod.snd) =
      qemu_thread_exit me v w ∧
    (∀ k,
      run me w (((performed w (qemu_thread_exit me v w)).map Prod.snd).take k) = w ∨
      (me, Act.notifier_list_notify (w.qemu_thread_data me)
          (w.heap (w.qemu_thread_data me)).exit) ∈
        performed w
          (run me w (((performed w (qemu_thread_exit me v w)).map Prod.snd).take k))) ∧
    ((w.heap (w.qemu_thread_data me)).exited = false →
      ∀ k,
        ((run me w (((performed w (qemu_thread_exit me v w)).map Prod.snd).take k)).heap
            (w.qemu_thread_data me)).exited = true →
        (me, Act.notifier_list_notify (w.qemu_thread_data me)
            (w.heap (w.qemu_thread_data me)).exit) ∈
          performed w
            (run me w (((performed w (qemu_thread_exit me v w)).map Prod.snd).take k))) := by
  have hgen : ∀ rest : List Act,
      qemu_thread_exit me v w =
        run me w (Act.notifier_list_notify (w.qemu_thread_data me)
          (w.heap (w.qemu_thread_data me)).exit :: rest) →
      run me w ((performed w (qemu_thread_exit me v w)).map Prod.snd) =
        qemu_thread_exit me v w ∧
      (∀ k,
        run me w (((performed w (qemu_thread_exit me v w)).map Prod.snd).take k) = w ∨
        (me, Act.notifier_list_notify (w.qemu_thread_data me)
            (w.heap (w.qemu_thread_data me)).exit) ∈
          performed w
            (run me w (((performed w (qemu_thread_exit me v w)).map Prod.snd).take k))) := by
    intro rest hrest
    have hseg : (performed w (qemu_thread_exit me v w)).map Prod.snd =
        Act.notifier_list_notify (w.qemu_thread_data me)
          (w.heap (w.qemu_thread_data me)).exit :: rest := by
      rw [hrest, performed_run, map_snd_tagged]
    rw [hseg]
    exact ⟨hrest.symm, fun k => notified_in_every_later_state me w _ rest k⟩
  have hboth : run me w ((performed w (qemu_thread_exit me v w)).map Prod.snd) =
        qemu_thread_exit me v w ∧
      (∀ k,
        run me w (((performed w (qemu_thread_exit me v w)).map Prod.snd).take k) = w ∨
        (me, Act.notifier_list_notify (w.qemu_thread_data me)
            (w.heap (w.qemu_thread_data me)).exit) ∈
          performed w
            (run me w (((performed w (qemu_thread_exit me v w)).map Prod.snd).take k))) := by
    by_cases h : (w.heap (w.qemu_thread_data me)).mode = QEMU_THREAD_JOINABLE
    · exact hgen _ (exit_joinable me v w h)
    · exact hgen _ (exit_not_joinable me v w h)
  refine ⟨?_, ?_, ?_, hboth.1, hboth.2, ?_⟩
  · intro h
    rw [exit_joinable me v w h, performed_run]; rfl
  · intro h
    rw [exit_not_joinable me v w h, performed_run]; rfl
  · by_cases h : (w.heap (w.qemu_thread_data me)).mode = QEMU_THREAD_JOINABLE
    · rw [exit_joinable me v w h, performed_run]
      simp [List.countP_cons, Act.isNotify]
    · rw [exit_not_joinable me v w h, performed_run]
      simp [List.countP_cons, Act.isNotify]
  · intro hx k hk
    rcases hboth.2 k with h0 | h0
    · rw [h0, hx] at hk
      exact absurd hk (by decide)
    · exact h0

/-! ## The `initialized` flag of the primitives -/

theorem mutex_trylock_asserts (mutex : QemuMutex) (tryAcquire : Nat) :
    (qemu_mutex_trylock_impl mutex tryAcquire = Except.error Fatal.assert_failed ↔
      mutex.initialized = false) ∧
    (∀ r calls, qemu_mutex_trylock_impl mutex tryAcquire = Except.ok (r, calls) →
      ∀ b, Call.set_initialized b ∉ calls) := by
  unfold qemu_mutex_trylock_impl
  cases h : mutex.initialized
  · simp
  · simp only [Bool.not_true, Bool.false_eq_true, if_false]
    split
    · refine ⟨by simp, ?_⟩
      intro r calls hr b
      simp only [Except.ok.injEq, Prod.mk.injEq] at hr
      rw [← hr.2]; simp
    · refine ⟨by simp, ?_⟩
      intro r calls hr b
      simp only [Except.ok.injEq, Prod.mk.injEq] at hr
      rw [← hr.2]; simp

theorem rec_mutex_trylock_asserts (mutex : QemuRecMutex) (tryEnter : Int) :
    (qemu_rec_mutex_trylock_impl mutex tryEnter = Except.error Fatal.assert_failed ↔
      mutex.initialized = false) ∧
    (∀ r calls, qemu_rec_mutex_trylock_impl mutex tryEnter = Except.ok (r, calls) →
      ∀ b, Call.set_initialized b ∉ calls) := by
  unfold qemu_rec_mutex_trylock_impl
  cases h : mutex.initialized
  · simp
  · simp only [Bool.not_true, Bool.false_eq_true, if_false]
    refine ⟨by simp, ?_⟩
    intro r calls hr b
    simp only [Except.ok.injEq, Prod.mk.injEq] at hr
    rw [← hr.2]; simp

theorem cond_timedwait_asserts (cond : QemuCond) (ms sleep : Int) (lastError : Nat) :
    (qemu_cond_timedwait_impl cond ms sleep lastError = Except.error Fatal.assert_failed ↔
      cond.initialized = false) ∧
    (∀ r calls, qemu_cond_timedwait_impl cond ms sleep lastError = Except.ok (r, calls) →
      ∀ b, Call.set_initialized b ∉ calls) := by
  unfold qemu_cond_timedwait_impl
  cases h : cond.initialized
  · simp
  · simp only [Bool.not_true, Bool.false_eq_true, if_false]
    by_cases hs : sleep = 0
    · simp only [hs, if_true]
      split
      · simp
      · refine ⟨by simp, ?_⟩
        intro r calls hr b
        simp only [Except.ok.injEq, Prod.mk.injEq] at hr
        rw [← hr.2]; simp
    · simp only [hs, if_false]
      split
      · simp
      · refine ⟨by simp, ?_⟩
        intro r calls hr b
        simp only [Except.ok.injEq, Prod.mk.injEq] at hr
        rw [← hr.2]; simp

theorem sem_timedwait_asserts (sem : QemuSemaphore) (ms : Int) (wait lastError : Nat) :
    (qemu_sem_timedwait sem ms wait lastError = Except.error Fatal.assert_failed ↔
      sem.initialized = false) ∧
    (∀ r calls, qemu_sem_timedwait sem ms wait lastError = Except.ok (r, calls) →
      ∀ b, Call.set_initialized b ∉ calls) := by
  unfold qemu_sem_timedwait
  cases h : sem.initialized
  · simp
  · simp only [Bool.not_true, Bool.false_eq_true, if_false]
    split
    · refine ⟨by simp, ?_⟩
      intro r calls hr b
      simp only [Except.ok.injEq, Prod.mk.injEq] at hr
      rw [← hr.2]; simp
    · split
      · simp
      · refine ⟨by simp, ?_⟩
        intro r calls hr b
        simp only [Except.ok.injEq, Prod.mk.injEq] at hr
        rw [← hr.2]; simp

theorem sem_wait_asserts (sem : QemuSemaphore) (wait lastError : Nat) :
    (qemu_sem_wait sem wait lastError = Except.error Fatal.assert_failed ↔
      sem.initialized = false) ∧
    (∀ after calls, qemu_sem_wait sem wait lastError = Except.ok (after, calls) →
      after = sem) := by
  unfold qemu_sem_wait
  cases h : sem.initialized
  · simp
  · simp only [Bool.not_true, Bool.false_eq_true, if_false]
    split
    · simp
    · refine ⟨by simp, ?_⟩
      intro after calls hr
      simp only [Except.ok.injEq, Prod.mk.injEq] at hr
      exact hr.1.symm

/-- C11: for the mutex, the recursive mutex, the condition variable and the
semaphore. Initialisation leaves the flag true. Destruction fails its assertion when
the flag is clear, and otherwise clears the flag before it touches the host object.
Every other operation fails its assertion exactly when the flag is clear, writes the
flag nowhere and leaves the primitive as it was. Consequently every operation other
than initialisation, a second destruction included, fails its assertion on the
primitive that a destruction leaves behind. -/
theorem initialized_flag_discipline (mutex : QemuMutex) (rec_mutex : QemuRecMutex)
    (cond : QemuCond) (sem : QemuSemaphore) (other : QemuMutex) (tryAcquire : Nat)
    (tryEnter ms sleep count : Int) (wait lastError : Nat) (created : HANDLE) :
    ((qemu_mutex_init mutex).1.initialized = true ∧
      qemu_mutex_destroy mutex =
        (if mutex.initialized = true then
          Except.ok ({ mutex with initialized := false },
            [Call.set_initialized false, Call.InitializeSRWLock])
         else Except.error Fatal.assert_failed) ∧
      Except.map Prod.fst (qemu_mutex_lock_impl mutex) =
        (if mutex.initialized = true then Except.ok mutex
         else Except.error Fatal.assert_failed) ∧
      Except.map Prod.fst (qemu_mutex_unlock_impl mutex) =
        (if mutex.initialized = true then Except.ok mutex
         else Except.error Fatal.assert_failed) ∧
      (qemu_mutex_trylock_impl mutex tryAcquire = Except.error Fatal.assert_failed ↔
        mutex.initialized = false) ∧
      (∀ r calls, qemu_mutex_trylock_impl mutex tryAcquire = Except.ok (r, calls) →
        ∀ b, Call.set_initialized b ∉ calls) ∧
      (∀ after calls, qemu_mutex_destroy mutex = Except.ok (after, calls) →
        after.initialized = false ∧
        qemu_mutex_destroy after = Except.error Fatal.assert_failed ∧
        qemu_mutex_lock_impl after = Except.error Fatal.assert_failed ∧
        qemu_mutex_trylock_impl after tryAcquire = Except.error Fatal.assert_failed ∧
        qemu_mutex_unlock_impl after = Except.error Fatal.assert_failed)) ∧
    ((qemu_rec_mutex_init rec_mutex).1.initialized = true ∧
      qemu_rec_mutex_destroy rec_mutex =
        (if rec_mutex.initialized = true then
          Except.ok ({ rec_mutex with initialized := false },
            [Call.set_initialized false, Call.DeleteCriticalSection])
         else Except.error Fatal.assert_failed) ∧
      Except.map Prod.fst (qemu_rec_mutex_lock_impl rec_mutex) =
        (if rec_mutex.initialized = true then Except.ok rec_mutex
         else Except.error Fatal.assert_failed) ∧
      Except.map Prod.fst (qemu_rec_mutex_unlock_impl rec_mutex) =
        (if rec_mutex.initialized = true then Except.ok rec_mutex
         else Except.error Fatal.assert_failed) ∧
      (qemu_rec_mutex_trylock_impl rec_mutex tryEnter = Except.error Fatal.assert_failed ↔
        rec_mutex.initialized = false) ∧
      (∀ r calls, qemu_rec_mutex_trylock_impl rec_mutex tryEnter = Except.ok (r, calls) →
        ∀ b, Call.set_initialized b ∉ calls) ∧
      (∀ after calls, qemu_rec_mutex_destroy rec_mutex = Except.ok (after, calls) →
        after.initialized = false ∧
        qemu_rec_mutex_destroy after = Except.error Fatal.assert_failed ∧
        qemu_rec_mutex_lock_impl after = Except.error Fatal.assert_failed ∧
        qemu_rec_mutex_trylock_impl after tryEnter = Except.error Fatal.assert_failed ∧
        qemu_rec_mutex_unlock_impl after = Except.error Fatal.assert_failed)) ∧
    ((qemu_cond_init cond).1.initialized = true ∧
      qemu_cond_destroy cond =
        (if cond.initialized = true then
          Except.ok ({ cond with initialized := false },
            [Call.set_initialized false, Call.InitializeConditionVariable])
         else Except.error Fatal.assert_failed) ∧
      Except.map Prod.fst (qemu_cond_signal cond) =
        (if cond.initialized = true then Except.ok cond
         else Except.error Fatal.assert_failed) ∧
      Except.map Prod.fst (qemu_cond_broadcast cond) =
        (if cond.initialized = true then Except.ok cond
         else Except.error Fatal.assert_failed) ∧
      Except.map Prod.fst (qemu_cond_wait_impl cond other) =
        (if cond.initialized = true then Except.ok cond
         else Except.error Fatal.assert_failed) ∧
      (qemu_cond_timedwait_impl cond ms sleep lastError = Except.error Fatal.assert_failed ↔
        cond.initialized = false) ∧
      (∀ r calls, qemu_cond_timedwait_impl cond ms sleep lastError = Except.ok (r, calls) →
        ∀ b, Call.set_initialized b ∉ calls) ∧
      (∀ after calls, qemu_cond_destroy cond = Except.ok (after, calls) →
        after.initialized = false ∧
        qemu_cond_destroy after = Except.error Fatal.assert_failed ∧
        qemu_cond_signal after = Except.error Fatal.assert_failed ∧
        qemu_cond_broadcast after = Except.error Fatal.assert_failed ∧
        qemu_cond_wait_impl after other = Except.error Fatal.assert_failed ∧
        qemu_cond_timedwait_impl after ms sleep lastError =
          Except.error Fatal.assert_failed)) ∧
    ((qemu_sem_init sem count created).1.initialized = true ∧
      qemu_sem_destroy sem =
        (if sem.initialized = true then
          Except.ok ({ sem with initialized := false },
            [Call.set_initialized false, Call.CloseHandle sem.sema])
         else Except.error Fatal.assert_failed) ∧
      Except.map Prod.fst (qemu_sem_post sem) =
        (if sem.initialized = true then Except.ok sem
         else Except.error Fatal.assert_failed) ∧
      (qemu_sem_wait sem wait lastError = Except.error Fatal.assert_failed ↔
        sem.initialized = false) ∧
      (∀ after calls, qemu_sem_wait sem wait lastError = Except.ok (after, calls) →
        after = sem) ∧
      (qemu_sem_timedwait sem ms wait lastError = Except.error Fatal.assert_failed ↔
        sem.initialized = false) ∧
      (∀ r calls, qemu_sem_timedwait sem ms wait lastError = Except.ok (r, calls) →
        ∀ b, Call.set_initialized b ∉ calls) ∧
      (∀ after calls, qemu_sem_destroy sem = Except.ok (after, calls) →
        after.initialized = false ∧
        qemu_sem_destroy after = Except.error Fatal.assert_failed ∧
        qemu_sem_post after = Except.error Fatal.assert_failed ∧
        qemu_sem_wait after wait lastError = Except.error Fatal.assert_failed ∧
        qemu_sem_timedwait after ms wait lastError = Except.error Fatal.assert_failed)) := by
  refine ⟨⟨?_, ?_, ?_, ?_, ?_, ?_, ?_⟩, ⟨?_, ?_, ?_, ?_, ?_, ?_, ?_⟩,
    ⟨?_, ?_, ?_, ?_, ?_, ?_, ?_, ?_⟩, ⟨?_, ?_, ?_, ?_, ?_, ?_, ?_, ?_⟩⟩
  · rfl
  · cases h : mutex.initialized <;> simp [qemu_mutex_destroy, h]
  · cases h : mutex.initialized <;> simp [qemu_mutex_lock_impl, h, Except.map]
  · cases h : mutex.initialized <;> simp [qemu_mutex_unlock_impl, h, Except.map]
  · exact (mutex_trylock_asserts mutex tryAcquire).1
  · exact (mutex_trylock_asserts mutex tryAcquire).2
  · intro after calls hd
    have ha : after.initialized = false := by
      cases h : mutex.initialized <;> simp [qemu_mutex_destroy, h] at hd
      rw [← hd.1]
    exact ⟨ha, by simp [qemu_mutex_destroy, ha], by simp [qemu_mutex_lock_impl, ha],
      (mutex_trylock_asserts after tryAcquire).1.mpr ha, by simp [qemu_mutex_unlock_impl, ha]⟩
  · rfl
  · cases h : rec_mutex.initialized <;> simp [qemu_rec_mutex_destroy, h]
  · cases h : rec_mutex.initialized <;> simp [qemu_rec_mutex_lock_impl, h, Except.map]
  · cases h : rec_mutex.initialized <;> simp [qemu_rec_mutex_unlock_impl, h, Except.map]
  · exact (rec_mutex_trylock_asserts rec_mutex tryEnter).1
  · exact (rec_mutex_trylock_asserts rec_mutex tryEnter).2
  · intro after calls hd
    have ha : after.initialized = false := by
      cases h : rec_mutex.initialized <;> simp [qemu_rec_mutex_destroy, h] at hd
      rw [← hd.1]
    exact ⟨ha, by simp [qemu_rec_mutex_destroy, ha], by simp [qemu_rec_mutex_lock_impl, ha],
      (rec_mutex_trylock_asserts after tryEnter).1.mpr ha,
      by simp [qemu_rec_mutex_unlock_impl, ha]⟩
  · rfl
  · cases h : cond.initialized <;> simp [qemu_cond_destroy, h]
  · cases h : cond.initialized <;> simp [qemu_cond_signal, h, Except.map]
  · cases h : cond.initialized <;> simp [qemu_cond_broadcast, h, Except.map]
  · cases h : cond.initialized <;> simp [qemu_cond_wait_impl, h, Except.map]
  · exact (cond_timedwait_asserts cond ms sleep lastError).1
  · exact (cond_timedwait_asserts cond ms sleep lastError).2
  · intro after calls hd
    have ha : after.initialized = false := by
      cases h : cond.initialized <;> simp [qemu_cond_destroy, h] at hd
      rw [← hd.1]
    exact ⟨ha, by simp [qemu_cond_destroy, ha], by simp [qemu_cond_signal, ha],
      by simp [qemu_cond_broadcast, ha], by simp [qemu_cond_wait_impl, ha],
      (cond_timedwait_asserts after ms sleep lastError).1.mpr ha⟩
  · rfl
  · cases h : sem.initialized <;> simp [qemu_sem_destroy, h]
  · cases h : sem.initialized <;> simp [qemu_sem_post, h, Except.map]
  · exact (sem_wait_asserts sem wait lastError).1
  · exact (sem_wait_asserts sem wait lastError).2
  · exact (sem_timedwait_asserts sem ms wait lastError).1
  · exact (sem_timedwait_asserts sem ms wait lastError).2
  · intro after calls hd
    have ha : after.initialized = false := by
      cases h : sem.initialized <;> simp [qemu_sem_destroy, h] at hd
      rw [← hd.1]
    exact ⟨ha, by simp [qemu_sem_destroy, ha], by simp [qemu_sem_post, ha],
      (sem_wait_asserts after wait lastError).1.mpr ha,
      (sem_timedwait_asserts after ms wait lastError).1.mpr ha⟩

/-! ## Thread naming -/

theorem load_set_thread_description_probe (host : Host) (me : Tid) (w : World)
    (hc : probe_consistent host w = true) :
    (load_set_thread_description host me w).2 = host.supports_naming ∧
    probe_consistent host (load_set_thread_description host me w).1 = true ∧
    (load_set_thread_description host me w).1.name_threads = w.name_threads := by
  unfold load_set_thread_description
  unfold probe_consistent at hc ⊢
  cases hi : w.init_once
  · simp only [hi, Bool.false_eq_true, if_false, decide_eq_true_eq] at hc
    by_cases hl : host.LoadLibrary = 0 <;> by_cases hg : host.GetProcAddress = 0 <;>
      simp [hi, hc, hl, hg, step, NULL, Host.supports_naming]
  · simp only [hi, if_true] at hc
    simp [hi, hc]
    simpa using hc

theorem naming_spec (host : Host) (me : Tid) (enable : Bool) (w : World)
    (hc : probe_consistent host w = true) :
    (qemu_thread_naming host me enable w).name_threads = (enable && host.supports_naming) ∧
    probe_consistent host (qemu_thread_naming host me enable w) = true := by
  unfold qemu_thread_naming
  cases enable
  · exact ⟨rfl, hc⟩
  · have hc2 : probe_consistent host { w with name_threads := true } = true := hc
    obtain ⟨h1, h2, h3⟩ :=
      load_set_thread_description_probe host me { w with name_threads := true } hc2
    simp only [if_true, Bool.true_and]
    rcases hl : load_set_thread_description host me { w with name_threads := true }
      with ⟨w2, ok⟩
    rw [hl] at h1 h2 h3
    simp only at h1 h2 h3 ⊢
    cases ok
    · refine ⟨by rw [← h1]; rfl, ?_⟩
      simpa [probe_consistent, step] using h2
    · refine ⟨?_, h2⟩
      rw [← h1]
      simpa using h3

theorem namings_consistent (host : Host) (me : Tid) (enables : List Bool) (w : World)
    (hc : probe_consistent host w = true) :
    probe_consistent host (namings host me enables w) = true := by
  induction enables generalizing w with
  | nil => exact hc
  | cons e es ih =>
    exact ih (qemu_thread_naming host me e w) (naming_spec host me e w hc).2

theorem create_without_naming (host : Host) (me : Tid) (name : Ptr)
    (start_routine : Ptr → Body) (arg : Ptr) (mode : Int) (w : World)
    (hflag : w.name_threads = false) (hh : host.beginthreadex_handle ≠ NULL) :
    ∃ w1, qemu_thread_create host me name start_routine arg mode w =
        Except.ok (w1, { data := host.g_malloc, tid := host.beginthreadex_tid }) ∧
      performed w w1 =
        [(me, Act.g_malloc host.g_malloc)] ++
        (if toShort mode ≠ QEMU_THREAD_DETACHED then
          [(me, Act.InitializeCriticalSection host.g_malloc)] else []) ++
        [(me, Act.beginthreadex host.g_malloc host.beginthreadex_tid),
         (me, Act.CloseHandle host.beginthreadex_handle)] := by
  unfold qemu_thread_create
  simp only [hh, if_false]
  refine ⟨_, rfl, ?_⟩
  by_cases hm : toShort mode = QEMU_THREAD_DETACHED <;>
    simp [performed, step, World.store, hflag, hm]

theorem load_set_thread_description_log (host : Host) (me : Tid) (w : World)
    (e : Tid × Act) (he : e ∈ w.log) :
    e ∈ (load_set_thread_description host me w).1.log := by
  unfold load_set_thread_description
  simp only
  split
  · split
    · split <;> simp [step, he]
    · simp [step, he]
  · exact he

theorem set_thread_description_log (host : Host) (me : Tid) (h : HANDLE) (name : Ptr)
    (w : World) (e : Tid × Act) (he : e ∈ w.log) :
    e ∈ (set_thread_description host me h name w).1.log := by
  have hl := load_set_thread_description_log host me w e he
  unfold set_thread_description
  simp only
  split
  · exact hl
  · split
    · exact hl
    · simp [hl]

theorem naming_attempt_log (host : Host) (me : Tid) (h : HANDLE) (name : Ptr) (w : World)
    (e : Tid × Act) (he : e ∈ w.log) :
    e ∈ (if (w.name_threads && decide (name ≠ NULL)) = true then
          if (!(set_thread_description host me h name w).2) = true then
            step me (set_thread_description host me h name w).1
              (Act.fprintf_failed_to_set_description name)
          else (set_thread_description host me h name w).1
        else w).log := by
  have hmem := set_thread_description_log host me h name w e he
  split
  · split
    · rw [step_log]; exact List.mem_append_left _ hmem
    · exact hmem
  · exact he

theorem create_started (host : Host) (me : Tid) (name : Ptr) (start_routine : Ptr → Body)
    (arg : Ptr) (mode : Int) (w : World) (hh : host.beginthreadex_handle ≠ NULL) :
    ∃ w1, qemu_thread_create host me name start_routine arg mode w =
        Except.ok (w1, { data := host.g_malloc, tid := host.beginthreadex_tid }) ∧
      (me, Act.beginthreadex host.g_malloc host.beginthreadex_tid) ∈ w1.log ∧
      (w1.heap host.g_malloc).start_routine = start_routine ∧
      (w1.heap host.g_malloc).arg = arg ∧
      (w1.heap host.g_malloc).mode = toShort mode := by
  obtain ⟨w1, hc, hm, -, -, hs, ha, -⟩ := create_spec host me name start_routine arg mode w hh
  refine ⟨w1, hc, ?_, hs, ha, hm⟩
  unfold qemu_thread_create at hc
  simp only [hh, if_false, Except.ok.injEq, Prod.mk.injEq, and_true] at hc
  rw [← hc, step_log]
  apply List.mem_append_left
  apply naming_attempt_log
  rw [step_log]; simp

theorem probe_consistent_congr (host : Host) (w w2 : World)
    (h1 : w2.init_once = w.init_once)
    (h2 : w2.SetThreadDescriptionFunc = w.SetThreadDescriptionFunc) :
    probe_consistent host w2 = probe_consistent host w := by
  simp [probe_consistent, h1, h2]

theorem step_init_once (me : Tid) (w : World) (a : Act) :
    (step me w a).init_once = w.init_once := by
  cases a <;> rfl

theorem step_SetThreadDescriptionFunc (me : Tid) (w : World) (a : Act) :
    (step me w a).SetThreadDescriptionFunc = w.SetThreadDescriptionFunc := by
  cases a <;> rfl

theorem set_thread_description_consistent (host : Host) (me : Tid) (h : HANDLE) (name : Ptr)
    (w : World) (hc : probe_consistent host w = true) :
    probe_consistent host (set_thread_description host me h name w).1 = true := by
  have hl := (load_set_thread_description_probe host me w hc).2.1
  unfold set_thread_description
  simp only
  split
  · exact hl
  · split
    · exact hl
    · rw [probe_consistent_congr host _ _ (step_init_once _ _ _)
        (step_SetThreadDescriptionFunc _ _ _)]
      exact hl

theorem naming_attempt_consistent (host : Host) (me : Tid) (h : HANDLE) (name : Ptr)
    (w : World) (hc : probe_consistent host w = true) :
    probe_consistent host
      (if (w.name_threads && decide (name ≠ NULL)) = true then
          if (!(set_thread_description host me h name w).2) = true then
            step me (set_thread_description host me h name w).1
              (Act.fprintf_failed_to_set_description name)
          else (set_thread_description host me h name w).1
        else w) = true := by
  have hs := set_thread_description_consistent host me h name w hc
  split
  · split
    · rw [probe_consistent_congr host _ _ (step_init_once _ _ _)
        (step_SetThreadDescriptionFunc _ _ _)]
      exact hs
    · exact hs
  · exact hc

theorem create_consistent (host : Host) (me : Tid) (name : Ptr) (start_routine : Ptr → Body)
    (arg : Ptr) (mode : Int) (w w1 : World) (thread : QemuThread)
    (hc : probe_consistent host w = true)
    (hcr : qemu_thread_create host me name start_routine arg mode w =
      Except.ok (w1, thread)) :
    probe_consistent host w1 = true := by
  unfold qemu_thread_create at hcr
  by_cases hh : host.beginthreadex_handle = NULL
  · simp [hh] at hcr
  · simp only [hh, if_false, Except.ok.injEq, Prod.mk.injEq] at hcr
    rw [← hcr.1, probe_consistent_congr host _ _ (step_init_once _ _ _)
      (step_SetThreadDescriptionFunc _ _ _)]
    apply naming_attempt_consistent
    rw [probe_consistent_congr host _ _ (step_init_once _ _ _)
      (step_SetThreadDescriptionFunc _ _ _)]
    split <;>
      (simp only [probe_consistent, step_init_once, step_SetThreadDescriptionFunc,
        World.store] at hc ⊢
       exact hc)

/-- C12: from a state in which the one-time probe agrees with the host, after any
number of earlier calls, the naming flag after `qemu_thread_naming enable` equals
`enable` and the host supporting thread descriptions; on a host without that support
the flag is false after every call. While the flag is false `qemu_thread_create`
makes no naming attempt: it probes nothing, calls no `SetThreadDescription` and
prints no diagnostic. `qemu_thread_naming` always returns a state, and for every
input for which the host starts the thread, whatever becomes of the naming attempt,
`qemu_thread_create` returns the handle of the started thread with its control block
filled in. The agreement of the probe with the host holds at program start and is
kept by `qemu_thread_naming` and by `qemu_thread_create`. -/
theorem naming_flag_follows_host (host : Host) (me : Tid) (earlier : List Bool)
    (enable : Bool) (w : World)
    (hc : probe_consistent host w = true) :
    (qemu_thread_naming host me enable (namings host me earlier w)).name_threads =
      (enable && host.supports_naming) ∧
    (host.supports_naming = false →
      (qemu_thread_naming host me enable (namings host me earlier w)).name_threads = false) ∧
    (∀ (hostC : Host) (creator : Tid) (name : Ptr) (start_routine : Ptr → Body) (arg : Ptr)
        (mode : Int) (w0 : World),
      w0.name_threads = false → hostC.beginthreadex_handle ≠ NULL →
      ∃ w1 thread,
        qemu_thread_create hostC creator name start_routine arg mode w0 =
          Except.ok (w1, thread) ∧
        (performed w0 w1).all (fun e => !e.2.isNaming) = true) ∧
    (∀ (hostC : Host) (creator : Tid) (name : Ptr) (start_routine : Ptr → Body) (arg : Ptr)
        (mode : Int) (w0 : World),
      hostC.beginthreadex_handle ≠ NULL →
      ∃ w1,
        qemu_thread_create hostC creator name start_routine arg mode w0 =
          Except.ok (w1, { data := hostC.g_malloc, tid := hostC.beginthreadex_tid }) ∧
        (creator, Act.beginthreadex hostC.g_malloc hostC.beginthreadex_tid) ∈ w1.log ∧
        (w1.heap hostC.g_malloc).start_routine = start_routine ∧
        (w1.heap hostC.g_malloc).arg = arg ∧
        (w1.heap hostC.g_malloc).mode = toShort mode) ∧
    (probe_consistent host World.start = true ∧
      probe_consistent host
        (qemu_thread_naming host me enable (namings host me earlier w)) = true ∧
      (∀ (creator : Tid) (name : Ptr) (start_routine : Ptr → Body) (arg : Ptr) (mode : Int)
          (w1 : World) (thread : QemuThread),
        qemu_thread_create host creator name start_routine arg mode w =
          Except.ok (w1, thread) →
        probe_consistent host w1 = true)) := by
  have hflag := (naming_spec host me enable (namings host me earlier w)
    (namings_consistent host me earlier w hc)).1
  refine ⟨hflag, ?_, ?_, ?_, ⟨rfl, (naming_spec host me enable (namings host me earlier w)
    (namings_consistent host me earlier w hc)).2, ?_⟩⟩
  rotate_right
  · intro creator name start_routine arg mode w1 thread hcr
    exact create_consistent host creator name start_routine arg mode w w1 thread hc hcr
  · intro hs
    rw [hflag, hs]; simp
  · intro hostC creator name start_routine arg mode w0 hf hh
    obtain ⟨w1, hcr, hp⟩ :=
      create_without_naming hostC creator name start_routine arg mode w0 hf hh
    refine ⟨w1, _, hcr, ?_⟩
    rw [hp]
    by_cases hm : toShort mode = QEMU_THREAD_DETACHED <;> simp [hm, Act.isNaming]
  · intro hostC creator name start_routine arg mode w0 hh
    exact create_started hostC creator name start_routine arg mode w0 hh

/-- Witness of C12: on `Host.plain`, which has no thread naming, enabling names from
the start state leaves the flag false; on `Host.failingNames`, on which every thread
description fails, a named thread is created all the same. -/
theorem naming_flag_follows_host_witness :
    probe_consistent Host.plain World.start = true ∧
    (qemu_thread_naming Host.plain 1 true
      (namings Host.plain 1 [true, false] World.start)).name_threads = false ∧
    Except.map Prod.snd
        (qemu_thread_create Host.failingNames 1 77 routine42 0 QEMU_THREAD_JOINABLE
          (qemu_thread_naming Host.failingNames 1 true World.start)) =
      Except.ok { data := 8, tid := 7 } := by
  refine ⟨by rfl, ?_, ?_⟩
  · exact (naming_flag_follows_host Host.plain 1 [true, false] true World.start (by rfl)).2.1
      (by rfl)
  · obtain ⟨w1, h, -⟩ :=
      (naming_flag_follows_host Host.plain 1 [] true World.start (by rfl)).2.2.2.1
        Host.failingNames 1 77 routine42 0 QEMU_THREAD_JOINABLE
        (qemu_thread_naming Host.failingNames 1 true World.start) (by decide)
    rw [h]; rfl

/-! ## Self-identification -/

/-- C13: for threads `t` and `u` with host thread identifiers `tid t` and `tid u`,
`qemu_thread_is_self` evaluated on `u` for the handle that `qemu_thread_get_self`
produced on `t` is true if `u = t` and false if `tid u` differs from `tid t`; the
handle holds the thread-local control block of `t` and the host thread identifier
of `t`. -/
theorem is_self_of_get_self (Thread : Type) (tid : Thread → Tid) (t u : Thread)
    (w : World) :
    (u = t → qemu_thread_is_self (tid u) (qemu_thread_get_self (tid t) w) = true) ∧
    (tid u ≠ tid t → qemu_thread_is_self (tid u) (qemu_thread_get_self (tid t) w) = false) ∧
    (qemu_thread_get_self (tid t) w).data = w.qemu_thread_data (tid t) ∧
    (qemu_thread_get_self (tid t) w).tid = tid t := by
  refine ⟨?_, ?_, rfl, rfl⟩
  · intro h
    subst h
    simp [qemu_thread_is_self, qemu_thread_get_self]
  · intro h
    simp [qemu_thread_is_self, qemu_thread_get_self, h]

end QemuThreadWin32
